import Mathlib

/-!
# Verification of the go-rdbms storage core

Shallow embedding of the repository's two storage components:

* `storage.HeapPage` — a slotted page over one page-sized byte buffer
  (8-byte header of four little-endian `uint16` fields, a slot directory of
  4-byte entries growing from the front, record data packed from the tail).
* `pager.Pager` — fixed-size page I/O over a growable file.

The page buffer is modelled as a total byte function `Nat → Nat` together
with its length; every `uint16` header access goes through explicit
little-endian encoding with `% 256` / `% 65536` arithmetic, mirroring Go's
`binary.LittleEndian` and unsigned wraparound.  Go slice-bounds panics and
the explicit `panic` in `setSlot` are modelled as distinguished outcome
constructors (`oob` and `panicked`).
-/

namespace GoRdbms

/-- One page buffer: `size` is `len(buf)`, `data` the byte at each index
(indices `≥ size` are never written by any modelled operation). -/
structure HeapPage where
  size : Nat
  data : Nat → Nat

/-- `binary.LittleEndian.Uint16(buf[i:i+2])`. -/
def readU16 (p : HeapPage) (i : Nat) : Nat := p.data i + 256 * p.data (i + 1)

/-- `binary.LittleEndian.PutUint16(buf[i:i+2], v)`: stores the low byte at
`i` and the high byte at `i+1` (Go wraps `v` to 16 bits). -/
def writeU16 (p : HeapPage) (i v : Nat) : HeapPage :=
  ⟨p.size, fun j => if j = i then v % 256 else if j = i + 1 then v / 256 % 256 else p.data j⟩

@[simp] theorem size_writeU16 (p : HeapPage) (i v : Nat) : (writeU16 p i v).size = p.size := rfl

theorem data_writeU16 (p : HeapPage) (i v j : Nat) :
    (writeU16 p i v).data j =
      if j = i then v % 256 else if j = i + 1 then v / 256 % 256 else p.data j := rfl

theorem readU16_writeU16_same (p : HeapPage) (i v : Nat) :
    readU16 (writeU16 p i v) i = v % 65536 := by
  have h1 : ¬ (i = i + 1) := by omega
  have h2 : ¬ (i + 1 = i) := by omega
  simp [readU16, data_writeU16, h1, h2]
  omega

theorem readU16_writeU16_of_ne (p : HeapPage) (i v j : Nat)
    (h : i + 2 ≤ j ∨ j + 2 ≤ i) :
    readU16 (writeU16 p i v) j = readU16 p j := by
  simp only [readU16, data_writeU16]
  rw [if_neg (by omega), if_neg (by omega), if_neg (by omega), if_neg (by omega)]

theorem data_writeU16_of_ne (p : HeapPage) (i v j : Nat) (h1 : j ≠ i) (h2 : j ≠ i + 1) :
    (writeU16 p i v).data j = p.data j := by
  simp only [data_writeU16]
  rw [if_neg h1, if_neg h2]

namespace HeapPage

/-- `p.slotCount()`. -/
def slotCount (p : HeapPage) : Nat := readU16 p 0
/-- `p.freeStart()`. -/
def freeStart (p : HeapPage) : Nat := readU16 p 2
/-- `p.freeEnd()`. -/
def freeEnd (p : HeapPage) : Nat := readU16 p 4
/-- `p.flags()`. -/
def flags (p : HeapPage) : Nat := readU16 p 6
/-- `p.setSlotCount(v)`. -/
def setSlotCount (p : HeapPage) (v : Nat) : HeapPage := writeU16 p 0 v
/-- `p.setFreeStart(v)`. -/
def setFreeStart (p : HeapPage) (v : Nat) : HeapPage := writeU16 p 2 v
/-- `p.setFreeEnd(v)`. -/
def setFreeEnd (p : HeapPage) (v : Nat) : HeapPage := writeU16 p 4 v
/-- `p.setFlags(v)`. -/
def setFlags (p : HeapPage) (v : Nat) : HeapPage := writeU16 p 6 v

/-- `p.freeSpace()`: `int(freeEnd) - int(freeStart)` clamped at `0`, then
converted back to `uint16`. -/
def freeSpace (p : HeapPage) : Nat :=
  if freeEnd p < freeStart p then 0 else (freeEnd p - freeStart p) % 65536

/-- Result of the internal `slot(i)` read: `none` for the
`i < 0 || i >= slotCount` early-out, `oob` when the directory slice
`buf[base:base+4]` would be out of range (a Go panic). -/
inductive SlotRead where
  | none : SlotRead
  | oob : SlotRead
  | entry (off ln : Nat) : SlotRead
  deriving DecidableEq

/-- `p.slot(i)`. -/
def slot (p : HeapPage) (i : Int) : SlotRead :=
  if i < 0 ∨ (slotCount p : Int) ≤ i then .none
  else if p.size < 8 + 4 * i.toNat + 4 then .oob
  else .entry (readU16 p (8 + 4 * i.toNat)) (readU16 p (8 + 4 * i.toNat + 2))

/-- Result of the internal `setSlot`: `panicked` is the explicit
`panic("invalid slot index …")`, `oob` a slice-bounds panic on the
directory write. -/
inductive SetSlotOut where
  | ok (p : HeapPage) : SetSlotOut
  | panicked : SetSlotOut
  | oob : SetSlotOut

/-- `p.setSlot(i, off, ln)` (internal callers always pass `i ≥ 0`). -/
def setSlot (p : HeapPage) (i : Nat) (off ln : Nat) : SetSlotOut :=
  if slotCount p < i then .panicked
  else if p.size < 8 + 4 * i + 4 then .oob
  else .ok (writeU16 (writeU16 p (8 + 4 * i) off) (8 + 4 * i + 2) ln)

/-- Outcome of `Insert`: `full` is the `"page is full"` error (the page is
returned unchanged, as the error return precedes every write); `oob` is the
slice-bounds panic on `p.buf[newEnd:p.freeEnd()]` or on the directory
write; `panicked` is `setSlot`'s explicit panic. -/
inductive InsOut where
  | ok (slotID : Nat) (p : HeapPage) : InsOut
  | full (p : HeapPage) : InsOut
  | oob : InsOut
  | panicked : InsOut

/-- `copy(p.buf[start:start+m], rec)`: overwrites `m` bytes from `rec`. -/
def copyInto (p : HeapPage) (start m : Nat) (rec : List Nat) : HeapPage :=
  ⟨p.size, fun j => if start ≤ j ∧ j < start + m then rec.getD (j - start) 0 else p.data j⟩

@[simp] theorem size_copyInto (p : HeapPage) (start m : Nat) (rec : List Nat) :
    (copyInto p start m rec).size = p.size := rfl

theorem data_copyInto (p : HeapPage) (start m : Nat) (rec : List Nat) (j : Nat) :
    (copyInto p start m rec).data j =
      if start ≤ j ∧ j < start + m then rec.getD (j - start) 0 else p.data j := rfl

/-- `p.Insert(rec)`.  `need` and `newEnd` are computed in `uint16`
arithmetic exactly as in Go (`uint16(len(rec)) + slotSize`,
`p.freeEnd() - uint16(len(rec))`), so both wrap modulo 65536.  The `copy`
copies `min(freeEnd-newEnd, len(rec))` bytes after Go's slice-bounds check. -/
def Insert (p : HeapPage) (rec : List Nat) : InsOut :=
  let need := (rec.length % 65536 + 4) % 65536
  if freeSpace p < need then .full p
  else
    let newEnd := (freeEnd p + (65536 - rec.length % 65536)) % 65536
    if freeEnd p < newEnd ∨ p.size < freeEnd p then .oob
    else
      let p1 := copyInto p newEnd (min (freeEnd p - newEnd) rec.length) rec
      let slotID := slotCount p1
      let p2 := p1.setSlotCount (p1.slotCount + 1)
      let p3 := p2.setFreeStart (p2.freeStart + 4)
      match p3.setSlot slotID newEnd (rec.length % 65536) with
      | .ok p4 => .ok slotID (p4.setFreeEnd newEnd)
      | .panicked => .panicked
      | .oob => .oob

/-- Outcome of `Get`: `notFound` is the `(nil, false)` return, `oob` a Go
slice-bounds panic (in `slot` or on `p.buf[off:off+ln]`). -/
inductive GetOut where
  | ok (bytes : List Nat) : GetOut
  | notFound : GetOut
  | oob : GetOut
  deriving DecidableEq

/-- `p.Get(slotID)`: returns a copy of the record bytes. -/
def Get (p : HeapPage) (slotID : Int) : GetOut :=
  match p.slot slotID with
  | .none => .notFound
  | .oob => .oob
  | .entry off ln =>
    if ln = 0 then .notFound
    else if p.size < off + ln then .oob
    else .ok ((List.range ln).map fun k => p.data (off + k))

/-- Outcome of `Delete`: `notFound` is the `"slot not found"` error (page
unchanged — the error return precedes the write). -/
inductive DelOut where
  | ok (p : HeapPage) : DelOut
  | notFound (p : HeapPage) : DelOut
  | oob : DelOut
  | panicked : DelOut

/-- `p.Delete(slotID)`: logical delete, overwrites the slot length with 0. -/
def Delete (p : HeapPage) (slotID : Int) : DelOut :=
  match p.slot slotID with
  | .none => .notFound p
  | .oob => .oob
  | .entry off ln =>
    if ln = 0 then .notFound p
    else
      match p.setSlot slotID.toNat off 0 with
      | .ok q => .ok q
      | .panicked => .panicked
      | .oob => .oob

/-- Outcome of `Update`: `delErr` is the error propagated from the failed
`Delete` (page unchanged), `full` the error propagated from the failed
re-`Insert` — the page it carries has the delete already applied. -/
inductive UpdOut where
  | ok (p : HeapPage) : UpdOut
  | delErr (p : HeapPage) : UpdOut
  | full (p : HeapPage) : UpdOut
  | oob : UpdOut
  | panicked : UpdOut

/-- `p.Update(slotID, rec)`: `Delete(slotID)` followed by `Insert(rec)`. -/
def Update (p : HeapPage) (slotID : Int) (rec : List Nat) : UpdOut :=
  match Delete p slotID with
  | .notFound q => .delErr q
  | .oob => .oob
  | .panicked => .panicked
  | .ok q =>
    match Insert q rec with
    | .ok _ r => .ok r
    | .full r => .full r
    | .oob => .oob
    | .panicked => .panicked

/-- The page carried by an `Insert` outcome (default for the abort cases). -/
def InsOut.pageD : InsOut → HeapPage → HeapPage
  | .ok _ p, _ => p
  | .full p, _ => p
  | _, d => d

/-- Whether an `Insert` succeeded. -/
def InsOut.isOk : InsOut → Bool
  | .ok _ _ => true
  | _ => false

/-- The slot identifier returned by a successful `Insert` (junk `0` otherwise). -/
def InsOut.idD : InsOut → Nat
  | .ok i _ => i
  | _ => 0

/-- The page carried by an `Update` outcome (default for the abort cases). -/
def UpdOut.pageD : UpdOut → HeapPage → HeapPage
  | .ok p, _ => p
  | .delErr p, _ => p
  | .full p, _ => p
  | _, d => d

/-- Whether an `Update` returned an error. -/
def UpdOut.isErr : UpdOut → Bool
  | .ok _ => false
  | _ => true

end HeapPage

/-- `NewHeapPage(buf)`: `none` is the `"page buffer too small"` error;
an all-zero header is auto-initialized. -/
def NewHeapPage (size : Nat) (data : Nat → Nat) : Option HeapPage :=
  if size < 8 then none
  else
    let p : HeapPage := ⟨size, data⟩
    if p.slotCount = 0 ∧ p.freeStart = 0 ∧ p.freeEnd = 0 then
      some ((((p.setSlotCount 0).setFreeStart 8).setFreeEnd (size % 65536)).setFlags 0)
    else some p

/-- The page produced by `NewHeapPage` on an all-zero buffer of length `n`. -/
def freshPage (n : Nat) : HeapPage :=
  ((((⟨n, fun _ => 0⟩ : HeapPage).setSlotCount 0).setFreeStart 8).setFreeEnd (n % 65536)).setFlags 0

theorem NewHeapPage_zero (n : Nat) (h : 8 ≤ n) :
    NewHeapPage n (fun _ => 0) = some (freshPage n) := by
  simp [NewHeapPage, freshPage, HeapPage.slotCount, HeapPage.freeStart, HeapPage.freeEnd, readU16]
  omega

open HeapPage

/-- Sufficient conditions for the success path of `Insert`: the header and
slot-directory bytes are genuine bytes, the header is consistent
(`freeStart = hdrSize + slotCount*slotSize`), `freeEnd` is in range, and
the free region holds the record (in `uint16` measure) plus a 4-byte slot. -/
def InsOK (p : HeapPage) (rec : List Nat) : Prop :=
  (∀ i, i < freeStart p → p.data i < 256) ∧
  freeStart p = 8 + 4 * slotCount p ∧
  freeEnd p ≤ p.size ∧ freeEnd p < 65536 ∧
  freeStart p + rec.length % 65536 + 4 ≤ freeEnd p

/-- The page produced by the success path of `Insert` (the wrapped
`uint16` expressions resolved to their plain values). -/
def insertOkPage (p : HeapPage) (rec : List Nat) : HeapPage :=
  let newEnd := freeEnd p - rec.length % 65536
  let p1 := copyInto p newEnd (rec.length % 65536) rec
  let p2 := p1.setSlotCount (p1.slotCount + 1)
  let p3 := p2.setFreeStart (p2.freeStart + 4)
  let p4 := writeU16 (writeU16 p3 (8 + 4 * slotCount p) newEnd) (8 + 4 * slotCount p + 2)
    (rec.length % 65536)
  p4.setFreeEnd newEnd


section HeaderGrid

variable (p : HeapPage) (v : Nat)

@[simp] theorem slotCount_setSlotCount : (p.setSlotCount v).slotCount = v % 65536 :=
  readU16_writeU16_same _ _ _

@[simp] theorem freeStart_setSlotCount : (p.setSlotCount v).freeStart = p.freeStart :=
  readU16_writeU16_of_ne _ _ _ _ (by omega)

@[simp] theorem freeEnd_setSlotCount : (p.setSlotCount v).freeEnd = p.freeEnd :=
  readU16_writeU16_of_ne _ _ _ _ (by omega)

@[simp] theorem flags_setSlotCount : (p.setSlotCount v).flags = p.flags :=
  readU16_writeU16_of_ne _ _ _ _ (by omega)

@[simp] theorem slotCount_setFreeStart : (p.setFreeStart v).slotCount = p.slotCount :=
  readU16_writeU16_of_ne _ _ _ _ (by omega)

@[simp] theorem freeStart_setFreeStart : (p.setFreeStart v).freeStart = v % 65536 :=
  readU16_writeU16_same _ _ _

@[simp] theorem freeEnd_setFreeStart : (p.setFreeStart v).freeEnd = p.freeEnd :=
  readU16_writeU16_of_ne _ _ _ _ (by omega)

@[simp] theorem flags_setFreeStart : (p.setFreeStart v).flags = p.flags :=
  readU16_writeU16_of_ne _ _ _ _ (by omega)

@[simp] theorem slotCount_setFreeEnd : (p.setFreeEnd v).slotCount = p.slotCount :=
  readU16_writeU16_of_ne _ _ _ _ (by omega)

@[simp] theorem freeStart_setFreeEnd : (p.setFreeEnd v).freeStart = p.freeStart :=
  readU16_writeU16_of_ne _ _ _ _ (by omega)

@[simp] theorem freeEnd_setFreeEnd : (p.setFreeEnd v).freeEnd = v % 65536 :=
  readU16_writeU16_same _ _ _

@[simp] theorem flags_setFreeEnd : (p.setFreeEnd v).flags = p.flags :=
  readU16_writeU16_of_ne _ _ _ _ (by omega)

@[simp] theorem slotCount_setFlags : (p.setFlags v).slotCount = p.slotCount :=
  readU16_writeU16_of_ne _ _ _ _ (by omega)

@[simp] theorem freeStart_setFlags : (p.setFlags v).freeStart = p.freeStart :=
  readU16_writeU16_of_ne _ _ _ _ (by omega)

@[simp] theorem freeEnd_setFlags : (p.setFlags v).freeEnd = p.freeEnd :=
  readU16_writeU16_of_ne _ _ _ _ (by omega)

@[simp] theorem flags_setFlags : (p.setFlags v).flags = v % 65536 :=
  readU16_writeU16_same _ _ _

@[simp] theorem size_setSlotCount : (p.setSlotCount v).size = p.size := rfl

@[simp] theorem size_setFreeStart : (p.setFreeStart v).size = p.size := rfl

@[simp] theorem size_setFreeEnd : (p.setFreeEnd v).size = p.size := rfl

@[simp] theorem size_setFlags : (p.setFlags v).size = p.size := rfl

variable (i : Nat)

@[simp] theorem slotCount_writeU16_dir : (writeU16 p (8 + 4 * i) v).slotCount = p.slotCount :=
  readU16_writeU16_of_ne _ _ _ _ (by omega)

@[simp] theorem freeStart_writeU16_dir : (writeU16 p (8 + 4 * i) v).freeStart = p.freeStart :=
  readU16_writeU16_of_ne _ _ _ _ (by omega)

@[simp] theorem freeEnd_writeU16_dir : (writeU16 p (8 + 4 * i) v).freeEnd = p.freeEnd :=
  readU16_writeU16_of_ne _ _ _ _ (by omega)

@[simp] theorem flags_writeU16_dir : (writeU16 p (8 + 4 * i) v).flags = p.flags :=
  readU16_writeU16_of_ne _ _ _ _ (by omega)

@[simp] theorem slotCount_writeU16_dir2 : (writeU16 p (8 + 4 * i + 2) v).slotCount = p.slotCount :=
  readU16_writeU16_of_ne _ _ _ _ (by omega)

@[simp] theorem freeStart_writeU16_dir2 : (writeU16 p (8 + 4 * i + 2) v).freeStart = p.freeStart :=
  readU16_writeU16_of_ne _ _ _ _ (by omega)

@[simp] theorem freeEnd_writeU16_dir2 : (writeU16 p (8 + 4 * i + 2) v).freeEnd = p.freeEnd :=
  readU16_writeU16_of_ne _ _ _ _ (by omega)

@[simp] theorem flags_writeU16_dir2 : (writeU16 p (8 + 4 * i + 2) v).flags = p.flags :=
  readU16_writeU16_of_ne _ _ _ _ (by omega)

end HeaderGrid

theorem slotCount_copyInto (p : HeapPage) (start m : Nat) (rec : List Nat) (h : 2 ≤ start) :
    slotCount (copyInto p start m rec) = slotCount p := by
  unfold slotCount readU16
  rw [data_copyInto, data_copyInto, if_neg (by omega), if_neg (by omega)]

theorem freeStart_copyInto (p : HeapPage) (start m : Nat) (rec : List Nat) (h : 4 ≤ start) :
    freeStart (copyInto p start m rec) = freeStart p := by
  unfold freeStart readU16
  rw [data_copyInto, data_copyInto, if_neg (by omega), if_neg (by omega)]

theorem freeEnd_copyInto (p : HeapPage) (start m : Nat) (rec : List Nat) (h : 6 ≤ start) :
    freeEnd (copyInto p start m rec) = freeEnd p := by
  unfold freeEnd readU16
  rw [data_copyInto, data_copyInto, if_neg (by omega), if_neg (by omega)]

theorem flags_copyInto (p : HeapPage) (start m : Nat) (rec : List Nat) (h : 8 ≤ start) :
    flags (copyInto p start m rec) = flags p := by
  unfold flags readU16
  rw [data_copyInto, data_copyInto, if_neg (by omega), if_neg (by omega)]

theorem Insert_success (p : HeapPage) (rec : List Nat) (h : InsOK p rec) :
    Insert p rec = .ok (slotCount p) (insertOkPage p rec) := by
  obtain ⟨hb, hfs, hes, he16, hroom⟩ := h
  have hLle : rec.length % 65536 ≤ rec.length := Nat.mod_le _ _
  have hnewEnd : (p.freeEnd + (65536 - rec.length % 65536)) % 65536 =
      p.freeEnd - rec.length % 65536 := by omega
  have hfsp : freeSpace p = freeEnd p - freeStart p := by
    unfold freeSpace; rw [if_neg (by omega)]; omega
  have hmin : min (freeEnd p - (freeEnd p - rec.length % 65536)) rec.length =
      rec.length % 65536 := by omega
  have hc1 : slotCount (copyInto p (freeEnd p - rec.length % 65536) (rec.length % 65536) rec)
      = slotCount p := slotCount_copyInto _ _ _ _ (by omega)
  have hs1 : freeStart (copyInto p (freeEnd p - rec.length % 65536) (rec.length % 65536) rec)
      = freeStart p := freeStart_copyInto _ _ _ _ (by omega)
  simp only [HeapPage.Insert, insertOkPage, hnewEnd, hmin, hc1, hs1]
  rw [if_neg (by omega), if_neg (by omega)]
  simp only [setSlot, slotCount_setFreeStart, slotCount_setSlotCount, hc1,
    freeStart_setSlotCount, hs1, size_setFreeStart, size_setSlotCount, size_copyInto]
  rw [if_neg (by omega), if_neg (by omega)]


@[simp] theorem size_insertOkPage (p : HeapPage) (rec : List Nat) :
    (insertOkPage p rec).size = p.size := by
  simp [insertOkPage]

theorem slotCount_insertOkPage (p : HeapPage) (rec : List Nat) (h : InsOK p rec) :
    slotCount (insertOkPage p rec) = slotCount p + 1 := by
  obtain ⟨hb, hfs, hes, he16, hroom⟩ := h
  have hc1 : slotCount (copyInto p (freeEnd p - rec.length % 65536) (rec.length % 65536) rec)
      = slotCount p := slotCount_copyInto _ _ _ _ (by omega)
  simp only [insertOkPage, slotCount_setFreeEnd, slotCount_writeU16_dir2,
    slotCount_writeU16_dir, slotCount_setFreeStart, slotCount_setSlotCount, hc1]
  omega

theorem freeStart_insertOkPage (p : HeapPage) (rec : List Nat) (h : InsOK p rec) :
    freeStart (insertOkPage p rec) = freeStart p + 4 := by
  obtain ⟨hb, hfs, hes, he16, hroom⟩ := h
  have hs1 : freeStart (copyInto p (freeEnd p - rec.length % 65536) (rec.length % 65536) rec)
      = freeStart p := freeStart_copyInto _ _ _ _ (by omega)
  simp only [insertOkPage, freeStart_setFreeEnd, freeStart_writeU16_dir2,
    freeStart_writeU16_dir, freeStart_setFreeStart, freeStart_setSlotCount, hs1]
  omega

theorem freeEnd_insertOkPage (p : HeapPage) (rec : List Nat) (h : InsOK p rec) :
    freeEnd (insertOkPage p rec) = freeEnd p - rec.length % 65536 := by
  obtain ⟨hb, hfs, hes, he16, hroom⟩ := h
  simp only [insertOkPage, freeEnd_setFreeEnd]
  omega

theorem flags_insertOkPage (p : HeapPage) (rec : List Nat) (h : InsOK p rec) :
    flags (insertOkPage p rec) = flags p := by
  obtain ⟨hb, hfs, hes, he16, hroom⟩ := h
  have hf1 : flags (copyInto p (freeEnd p - rec.length % 65536) (rec.length % 65536) rec)
      = flags p := flags_copyInto _ _ _ _ (by omega)
  simp only [insertOkPage, flags_setFreeEnd, flags_writeU16_dir2, flags_writeU16_dir,
    flags_setFreeStart, flags_setSlotCount, hf1]

theorem slotOff_insertOkPage_new (p : HeapPage) (rec : List Nat) (h : InsOK p rec) :
    readU16 (insertOkPage p rec) (8 + 4 * slotCount p) = freeEnd p - rec.length % 65536 := by
  obtain ⟨hb, hfs, hes, he16, hroom⟩ := h
  simp only [insertOkPage, HeapPage.setFreeEnd]
  rw [readU16_writeU16_of_ne _ _ _ _ (by omega), readU16_writeU16_of_ne _ _ _ _ (by omega),
    readU16_writeU16_same]
  omega

theorem slotLen_insertOkPage_new (p : HeapPage) (rec : List Nat) (h : InsOK p rec) :
    readU16 (insertOkPage p rec) (8 + 4 * slotCount p + 2) = rec.length % 65536 := by
  obtain ⟨hb, hfs, hes, he16, hroom⟩ := h
  simp only [insertOkPage, HeapPage.setFreeEnd]
  rw [readU16_writeU16_of_ne _ _ _ _ (by omega), readU16_writeU16_same]
  omega

theorem readU16_copyInto_lo (p : HeapPage) (start m : Nat) (rec : List Nat) (j : Nat)
    (h : j + 2 ≤ start) : readU16 (copyInto p start m rec) j = readU16 p j := by
  unfold readU16
  rw [data_copyInto, data_copyInto, if_neg (by omega), if_neg (by omega)]

theorem slotOff_insertOkPage_old (p : HeapPage) (rec : List Nat) (i : Nat) (h : InsOK p rec)
    (hi : i < slotCount p) :
    readU16 (insertOkPage p rec) (8 + 4 * i) = readU16 p (8 + 4 * i) := by
  obtain ⟨hb, hfs, hes, he16, hroom⟩ := h
  simp only [insertOkPage, HeapPage.setFreeEnd, HeapPage.setFreeStart, HeapPage.setSlotCount]
  rw [readU16_writeU16_of_ne _ _ _ _ (by omega), readU16_writeU16_of_ne _ _ _ _ (by omega),
    readU16_writeU16_of_ne _ _ _ _ (by omega), readU16_writeU16_of_ne _ _ _ _ (by omega),
    readU16_writeU16_of_ne _ _ _ _ (by omega), readU16_copyInto_lo _ _ _ _ _ (by omega)]

theorem slotLen_insertOkPage_old (p : HeapPage) (rec : List Nat) (i : Nat) (h : InsOK p rec)
    (hi : i < slotCount p) :
    readU16 (insertOkPage p rec) (8 + 4 * i + 2) = readU16 p (8 + 4 * i + 2) := by
  obtain ⟨hb, hfs, hes, he16, hroom⟩ := h
  simp only [insertOkPage, HeapPage.setFreeEnd, HeapPage.setFreeStart, HeapPage.setSlotCount]
  rw [readU16_writeU16_of_ne _ _ _ _ (by omega), readU16_writeU16_of_ne _ _ _ _ (by omega),
    readU16_writeU16_of_ne _ _ _ _ (by omega), readU16_writeU16_of_ne _ _ _ _ (by omega),
    readU16_writeU16_of_ne _ _ _ _ (by omega), readU16_copyInto_lo _ _ _ _ _ (by omega)]

theorem data_insertOkPage_rec (p : HeapPage) (rec : List Nat) (k : Nat) (h : InsOK p rec)
    (hk : k < rec.length % 65536) :
    (insertOkPage p rec).data (freeEnd p - rec.length % 65536 + k) = rec.getD k 0 := by
  obtain ⟨hb, hfs, hes, he16, hroom⟩ := h
  simp only [insertOkPage, HeapPage.setFreeEnd, HeapPage.setFreeStart, HeapPage.setSlotCount]
  rw [data_writeU16_of_ne _ _ _ _ (by omega) (by omega), data_writeU16_of_ne _ _ _ _ (by omega)
    (by omega), data_writeU16_of_ne _ _ _ _ (by omega) (by omega),
    data_writeU16_of_ne _ _ _ _ (by omega) (by omega),
    data_writeU16_of_ne _ _ _ _ (by omega) (by omega), data_copyInto, if_pos (by omega)]
  congr 1
  omega

theorem data_insertOkPage_hi (p : HeapPage) (rec : List Nat) (j : Nat) (h : InsOK p rec)
    (hj : freeEnd p ≤ j) : (insertOkPage p rec).data j = p.data j := by
  obtain ⟨hb, hfs, hes, he16, hroom⟩ := h
  simp only [insertOkPage, HeapPage.setFreeEnd, HeapPage.setFreeStart, HeapPage.setSlotCount]
  rw [data_writeU16_of_ne _ _ _ _ (by omega) (by omega), data_writeU16_of_ne _ _ _ _ (by omega)
    (by omega), data_writeU16_of_ne _ _ _ _ (by omega) (by omega),
    data_writeU16_of_ne _ _ _ _ (by omega) (by omega),
    data_writeU16_of_ne _ _ _ _ (by omega) (by omega), data_copyInto, if_neg (by omega)]

theorem data_writeU16_lt256 (p : HeapPage) (i v j : Nat) (h : p.data j < 256) :
    (writeU16 p i v).data j < 256 := by
  simp only [data_writeU16]
  split_ifs <;> omega

theorem data_insertOkPage_lt256 (p : HeapPage) (rec : List Nat) (i : Nat) (h : InsOK p rec)
    (hi : i < freeStart p + 4) : (insertOkPage p rec).data i < 256 := by
  obtain ⟨hb, hfs, hes, he16, hroom⟩ := h
  simp only [insertOkPage, HeapPage.setFreeEnd, HeapPage.setFreeStart, HeapPage.setSlotCount]
  by_cases h1 : i < freeStart p
  · refine data_writeU16_lt256 _ _ _ _ (data_writeU16_lt256 _ _ _ _ (data_writeU16_lt256 _ _ _ _
      (data_writeU16_lt256 _ _ _ _ (data_writeU16_lt256 _ _ _ _ ?_))))
    rw [data_copyInto, if_neg (by omega)]
    exact hb _ h1
  · rw [data_writeU16_of_ne _ _ _ _ (by omega) (by omega)]
    simp only [data_writeU16]
    split_ifs <;> omega


theorem slot_coe (p : HeapPage) (s : Nat) :
    p.slot (s : Int) =
      if slotCount p ≤ s then .none
      else if p.size < 8 + 4 * s + 4 then .oob
      else .entry (readU16 p (8 + 4 * s)) (readU16 p (8 + 4 * s + 2)) := by
  have hcond : ((s : Int) < 0 ∨ ((slotCount p : Int) ≤ (s : Int))) ↔ slotCount p ≤ s := by omega
  simp only [HeapPage.slot, hcond, Int.toNat_natCast]

/-- The page left by a successful `Delete(s)`: the slot's length overwritten
with `0`, its offset rewritten with its own value. -/
def tombstonePage (p : HeapPage) (s : Nat) : HeapPage :=
  writeU16 (writeU16 p (8 + 4 * s) (readU16 p (8 + 4 * s))) (8 + 4 * s + 2) 0

theorem Delete_success (p : HeapPage) (s : Nat)
    (hsc : s < slotCount p) (hsz : 8 + 4 * s + 4 ≤ p.size)
    (hln : readU16 p (8 + 4 * s + 2) ≠ 0) :
    Delete p (s : Int) = .ok (tombstonePage p s) := by
  unfold Delete
  rw [slot_coe p s, if_neg (by omega), if_neg (by omega)]
  simp only [Int.toNat_natCast, if_neg hln]
  rw [HeapPage.setSlot, if_neg (by omega), if_neg (by omega)]
  rfl

@[simp] theorem size_tombstonePage (p : HeapPage) (s : Nat) :
    (tombstonePage p s).size = p.size := rfl

@[simp] theorem slotCount_tombstonePage (p : HeapPage) (s : Nat) :
    slotCount (tombstonePage p s) = slotCount p := by
  simp [tombstonePage]

@[simp] theorem freeStart_tombstonePage (p : HeapPage) (s : Nat) :
    freeStart (tombstonePage p s) = freeStart p := by
  simp [tombstonePage]

@[simp] theorem freeEnd_tombstonePage (p : HeapPage) (s : Nat) :
    freeEnd (tombstonePage p s) = freeEnd p := by
  simp [tombstonePage]

@[simp] theorem flags_tombstonePage (p : HeapPage) (s : Nat) :
    flags (tombstonePage p s) = flags p := by
  simp [tombstonePage]

@[simp] theorem freeSpace_tombstonePage (p : HeapPage) (s : Nat) :
    freeSpace (tombstonePage p s) = freeSpace p := by
  unfold freeSpace
  rw [freeStart_tombstonePage, freeEnd_tombstonePage]

theorem slotLen_tombstonePage_self (p : HeapPage) (s : Nat) :
    readU16 (tombstonePage p s) (8 + 4 * s + 2) = 0 := by
  unfold tombstonePage
  rw [readU16_writeU16_same]

theorem slotOff_tombstonePage_self (p : HeapPage) (s : Nat)
    (hb : ∀ i, i < freeStart p → p.data i < 256)
    (hfs : freeStart p = 8 + 4 * slotCount p) (hsc : s < slotCount p) :
    readU16 (tombstonePage p s) (8 + 4 * s) = readU16 p (8 + 4 * s) := by
  unfold tombstonePage
  rw [readU16_writeU16_of_ne _ _ _ _ (by omega), readU16_writeU16_same]
  have h0 : p.data (8 + 4 * s) < 256 := hb _ (by omega)
  have h1 : p.data (8 + 4 * s + 1) < 256 := hb _ (by omega)
  unfold readU16
  omega

theorem slotOff_tombstonePage_other (p : HeapPage) (s t : Nat) (ht : t ≠ s) :
    readU16 (tombstonePage p s) (8 + 4 * t) = readU16 p (8 + 4 * t) := by
  unfold tombstonePage
  rw [readU16_writeU16_of_ne _ _ _ _ (by omega), readU16_writeU16_of_ne _ _ _ _ (by omega)]

theorem slotLen_tombstonePage_other (p : HeapPage) (s t : Nat) (ht : t ≠ s) :
    readU16 (tombstonePage p s) (8 + 4 * t + 2) = readU16 p (8 + 4 * t + 2) := by
  unfold tombstonePage
  rw [readU16_writeU16_of_ne _ _ _ _ (by omega), readU16_writeU16_of_ne _ _ _ _ (by omega)]

theorem data_tombstonePage (p : HeapPage) (s j : Nat)
    (hb : ∀ i, i < freeStart p → p.data i < 256)
    (hfs : freeStart p = 8 + 4 * slotCount p) (hsc : s < slotCount p)
    (h2 : j ≠ 8 + 4 * s + 2) (h3 : j ≠ 8 + 4 * s + 3) :
    (tombstonePage p s).data j = p.data j := by
  unfold tombstonePage
  rw [data_writeU16_of_ne _ _ _ _ h2 (by omega)]
  by_cases hj0 : j = 8 + 4 * s
  · subst hj0
    have h0 : p.data (8 + 4 * s) < 256 := hb _ (by omega)
    rw [data_writeU16, if_pos rfl]
    unfold readU16
    omega
  · by_cases hj1 : j = 8 + 4 * s + 1
    · subst hj1
      have h0 : p.data (8 + 4 * s) < 256 := hb _ (by omega)
      have h1 : p.data (8 + 4 * s + 1) < 256 := hb _ (by omega)
      rw [data_writeU16, if_neg (by omega), if_pos rfl]
      unfold readU16
      omega
    · rw [data_writeU16_of_ne _ _ _ _ hj0 hj1]

theorem data_tombstonePage_lt256 (p : HeapPage) (s j : Nat) (h : p.data j < 256) :
    (tombstonePage p s).data j < 256 :=
  data_writeU16_lt256 _ _ _ _ (data_writeU16_lt256 _ _ _ _ h)

theorem range_map_congr {α : Type} (n : Nat) (f g : Nat → α) (h : ∀ k, k < n → f k = g k) :
    (List.range n).map f = (List.range n).map g := by
  induction n with
  | zero => rfl
  | succ m ih =>
    rw [List.range_succ, List.map_append, List.map_append, ih (fun k hk => h k (by omega))]
    simp [h m (by omega)]


theorem Get_eval (p : HeapPage) (s : Nat) (hsc : s < slotCount p) (hsz : 8 + 4 * s + 4 ≤ p.size) :
    Get p (s : Int) =
      (if readU16 p (8 + 4 * s + 2) = 0 then .notFound
       else if p.size < readU16 p (8 + 4 * s) + readU16 p (8 + 4 * s + 2) then .oob
       else .ok ((List.range (readU16 p (8 + 4 * s + 2))).map
         fun k => p.data (readU16 p (8 + 4 * s) + k))) := by
  unfold Get
  rw [slot_coe p s, if_neg (by omega), if_neg (by omega)]

theorem Get_ge_count (p : HeapPage) (s : Nat) (hsc : slotCount p ≤ s) :
    Get p (s : Int) = .notFound := by
  unfold Get
  rw [slot_coe p s, if_pos hsc]

theorem range_map_getD {α : Type} (l : List α) (d : α) :
    (List.range l.length).map (fun k => l.getD k d) = l := by
  induction l with
  | nil => rfl
  | cons a l ih =>
    simp only [List.length_cons, List.range_succ_eq_map, List.map_cons, List.map_map,
      Function.comp_def, List.getD_cons_zero, List.getD_cons_succ]
    rw [ih]

theorem Delete_ok_inversion (p : HeapPage) (s : Nat) (q : HeapPage)
    (hD : Delete p (s : Int) = .ok q) :
    s < slotCount p ∧ 8 + 4 * s + 4 ≤ p.size ∧ readU16 p (8 + 4 * s + 2) ≠ 0 ∧
      q = tombstonePage p s := by
  unfold Delete at hD
  rw [slot_coe p s] at hD
  by_cases h1 : slotCount p ≤ s
  · rw [if_pos h1] at hD; exact DelOut.noConfusion hD
  · rw [if_neg h1] at hD
    by_cases h2 : p.size < 8 + 4 * s + 4
    · rw [if_pos h2] at hD; exact DelOut.noConfusion hD
    · rw [if_neg h2] at hD
      by_cases h3 : readU16 p (8 + 4 * s + 2) = 0
      · simp only [] at hD
        rw [if_pos h3] at hD
        exact DelOut.noConfusion hD
      · simp only [] at hD
        rw [if_neg h3] at hD
        simp only [Int.toNat_natCast] at hD
        rw [HeapPage.setSlot, if_neg (by omega), if_neg (by omega)] at hD
        refine ⟨by omega, by omega, h3, ?_⟩
        have : DelOut.ok (tombstonePage p s) = DelOut.ok q := hD
        injection this with h4
        exact h4.symm

theorem Insert_ok_inversion (p : HeapPage) (rec : List Nat) (sid : Nat) (q : HeapPage)
    (hb : ∀ i, i < freeStart p → p.data i < 256)
    (hfs : freeStart p = 8 + 4 * slotCount p)
    (hes : freeEnd p ≤ p.size) (hfe31 : freeEnd p ≤ 65531)
    (h : Insert p rec = .ok sid q) :
    InsOK p rec ∧ sid = slotCount p ∧ q = insertOkPage p rec := by
  by_cases hfull : freeSpace p < (rec.length % 65536 + 4) % 65536
  · unfold HeapPage.Insert at h
    rw [if_pos hfull] at h
    exact InsOut.noConfusion h
  · by_cases hoob : freeEnd p < (freeEnd p + (65536 - rec.length % 65536)) % 65536 ∨
        p.size < freeEnd p
    · unfold HeapPage.Insert at h
      rw [if_neg hfull, if_pos hoob] at h
      exact InsOut.noConfusion h
    · push_neg at hoob
      have hIns : InsOK p rec := by
        refine ⟨hb, hfs, hes, by omega, ?_⟩
        by_cases hL : rec.length % 65536 ≤ 65531
        · unfold freeSpace at hfull
          by_cases hES : freeEnd p < freeStart p
          · rw [if_pos hES] at hfull
            omega
          · rw [if_neg hES] at hfull
            omega
        · exfalso
          obtain ⟨hne, _⟩ := hoob
          have hl2 : rec.length % 65536 < 65536 := by omega
          omega
      rw [Insert_success p rec hIns] at h
      have h1 : sid = slotCount p := by
        injection h with ha hb2
        exact ha.symm
      refine ⟨hIns, h1, ?_⟩
      injection h with ha hb2
      exact hb2.symm


theorem Insert_full_eq (p : HeapPage) (rec : List Nat) (q : HeapPage)
    (h : Insert p rec = .full q) : q = p := by
  unfold HeapPage.Insert at h
  by_cases h1 : freeSpace p < (rec.length % 65536 + 4) % 65536
  · rw [if_pos h1] at h
    injection h with h2
    exact h2.symm
  · rw [if_neg h1] at h
    by_cases h2 : freeEnd p < (freeEnd p + (65536 - rec.length % 65536)) % 65536 ∨
        p.size < freeEnd p
    · rw [if_pos h2] at h
      exact InsOut.noConfusion h
    · rw [if_neg h2] at h
      simp only [] at h
      split at h <;> exact InsOut.noConfusion h

theorem Delete_notFound_eq (p : HeapPage) (i : Int) (q : HeapPage)
    (h : Delete p i = .notFound q) : q = p := by
  unfold Delete at h
  cases h0 : p.slot i with
  | none =>
    rw [h0] at h
    simp only [] at h
    injection h with h1
    exact h1.symm
  | oob =>
    rw [h0] at h
    exact DelOut.noConfusion h
  | entry off ln =>
    rw [h0] at h
    simp only [] at h
    by_cases h1 : ln = 0
    · rw [if_pos h1] at h
      injection h with h2
      exact h2.symm
    · rw [if_neg h1] at h
      split at h <;> exact DelOut.noConfusion h

theorem Update_delErr_eq (p : HeapPage) (i : Int) (rec : List Nat) (q : HeapPage)
    (h : Update p i rec = .delErr q) : q = p := by
  unfold Update at h
  rcases hD : Delete p i with r | r | _ | _ <;> rw [hD] at h
  · simp only [] at h
    rcases hI : Insert r rec with _ | _ | _ | _ <;> rw [hI] at h <;> exact UpdOut.noConfusion h
  · injection h with h1
    subst h1
    exact Delete_notFound_eq p i _ hD
  · exact UpdOut.noConfusion h
  · exact UpdOut.noConfusion h

theorem Update_full_spec (p : HeapPage) (s : Nat) (rec : List Nat)
    (hb : ∀ i, i < freeStart p → p.data i < 256)
    (hfs : freeStart p = 8 + 4 * slotCount p)
    (hss : freeStart p ≤ p.size)
    (hsc : s < slotCount p)
    (hln : readU16 p (8 + 4 * s + 2) ≠ 0)
    (hfull : freeSpace p < (rec.length % 65536 + 4) % 65536) :
    Update p (s : Int) rec = .full (tombstonePage p s) ∧
      Get (tombstonePage p s) (s : Int) = .notFound := by
  constructor
  · unfold Update
    rw [Delete_success p s hsc (by omega) hln]
    have hI : Insert (tombstonePage p s) rec = .full (tombstonePage p s) := by
      unfold HeapPage.Insert
      rw [if_pos (by rw [freeSpace_tombstonePage]; exact hfull)]
    simp only [] at hI ⊢
    rw [hI]
  · rw [Get_eval _ s (by rw [slotCount_tombstonePage]; exact hsc)
      (by rw [size_tombstonePage]; omega)]
    rw [if_pos (slotLen_tombstonePage_self p s)]

/-- C1 (amended): `Insert`, `Get` and `Delete` leave the buffer unchanged on
every error return, and so does `Update` when its `Delete` step fails; but an
`Update(s, R2)` on a live slot `s` whose re-insert does not fit fails *after*
applying the delete: the returned error leaves slot `s` tombstoned
(`Get(s) = NotFound`), not "still live with its original contents". -/
theorem C1_error_frame :
    (∀ (p : HeapPage) (rec : List Nat) (q : HeapPage), Insert p rec = .full q → q = p) ∧
    (∀ (p : HeapPage) (i : Int) (q : HeapPage), Delete p i = .notFound q → q = p) ∧
    (∀ (p : HeapPage) (i : Int) (rec : List Nat) (q : HeapPage),
      Update p i rec = .delErr q → q = p) ∧
    (∀ (p : HeapPage) (s : Nat) (rec : List Nat),
      (∀ i, i < freeStart p → p.data i < 256) →
      freeStart p = 8 + 4 * slotCount p →
      freeStart p ≤ p.size →
      s < slotCount p →
      readU16 p (8 + 4 * s + 2) ≠ 0 →
      freeSpace p < (rec.length % 65536 + 4) % 65536 →
      Update p (s : Int) rec = .full (tombstonePage p s) ∧
        Get (tombstonePage p s) (s : Int) = .notFound) :=
  ⟨Insert_full_eq, Delete_notFound_eq, Update_delErr_eq,
    fun p s rec hb hfs hss hsc hln hfull => Update_full_spec p s rec hb hfs hss hsc hln hfull⟩

/-- The page after inserting `[1,2,3,4]` into a fresh 16-byte page: slot 0
live with bytes `1,2,3,4`, `freeStart = freeEnd = 12`, free space `0`. -/
def onePage16 : HeapPage := (Insert (freshPage 16) [1, 2, 3, 4]).pageD (freshPage 16)

theorem C1_error_frame_witness :
    Update onePage16 (0 : Int) [9] = .full (tombstonePage onePage16 0) ∧
      Get (tombstonePage onePage16 0) (0 : Int) = .notFound :=
  C1_error_frame.2.2.2 onePage16 0 [9] (by decide) (by decide) (by decide) (by decide)
    (by decide) (by decide)

/-- Counterexample to C1 as stated: on a page whose only record fills it,
`Update(0, [9])` returns an error, yet the slot-0 record `[1,2,3,4]` that
was retrievable before the call is gone afterwards (the delete half of the
update was applied). -/
theorem C1_counterexample :
    (Update onePage16 (0 : Int) [9]).isErr = true ∧
      Get ((Update onePage16 (0 : Int) [9]).pageD onePage16) (0 : Int) = .notFound ∧
      Get onePage16 (0 : Int) = .ok [1, 2, 3, 4] := by
  refine ⟨by decide, by decide, by decide⟩


/-- C2 (code defect, `uint16` overflow): on a fresh 4096-byte page a
65532-byte record must fail with `PageFull` (`65532 + 4 = 65536` exceeds the
4088 free bytes), but `need := uint16(len(rec)) + 4` wraps to `0`, the
full-page check passes, and the slice expression
`p.buf[newEnd:p.freeEnd()]` (with `newEnd = 4100 > 4096`) panics instead of
returning an error. -/
theorem Insert_oob_of (p : HeapPage) (rec : List Nat)
    (hno : ¬ freeSpace p < (rec.length % 65536 + 4) % 65536)
    (hoob : freeEnd p < (freeEnd p + (65536 - rec.length % 65536)) % 65536 ∨
      p.size < freeEnd p) :
    Insert p rec = .oob := by
  simp only [HeapPage.Insert]
  rw [if_neg hno, if_pos hoob]

theorem C2_overflow_eval :
    Insert (freshPage 4096) (List.replicate 65532 0) = .oob ∧
      freeEnd (freshPage 4096) - freeStart (freshPage 4096) < 65532 + 4 ∧
      (65532 % 65536 + 4) % 65536 = 0 := by
  refine ⟨?_, by decide, by decide⟩
  refine Insert_oob_of _ _ ?_ ?_ <;> rw [List.length_replicate] <;> decide

/-- The page produced by auto-initialization in `NewHeapPage`. -/
def initPage (size : Nat) (data : Nat → Nat) : HeapPage :=
  ((((⟨size, data⟩ : HeapPage).setSlotCount 0).setFreeStart 8).setFreeEnd (size % 65536)).setFlags 0

/-- C3 (amended): a buffer shorter than 8 bytes is rejected; a buffer with
an all-zero header is auto-initialized to `slotCount = 0`, `freeStart = 8`,
`flags = 0` and `freeEnd = len(buf) mod 65536` — equal to `len(buf)` only
for buffers of at most 65535 bytes, since `freeEnd` is a 16-bit field. -/
theorem C3_construction (size : Nat) (data : Nat → Nat) :
    (size < 8 → NewHeapPage size data = none) ∧
    (8 ≤ size →
      slotCount ⟨size, data⟩ = 0 → freeStart ⟨size, data⟩ = 0 → freeEnd ⟨size, data⟩ = 0 →
      NewHeapPage size data = some (initPage size data) ∧
      slotCount (initPage size data) = 0 ∧
      freeStart (initPage size data) = 8 ∧
      freeEnd (initPage size data) = size % 65536 ∧
      flags (initPage size data) = 0) := by
  constructor
  · intro h
    unfold NewHeapPage
    rw [if_pos h]
  · intro h8 h0 h2 h4
    refine ⟨?_, ?_, ?_, ?_, ?_⟩
    · unfold NewHeapPage
      rw [if_neg (by omega), if_pos ⟨h0, h2, h4⟩]
      rfl
    · simp [initPage]
    · simp [initPage]
    · simp only [initPage, freeEnd_setFlags, freeEnd_setFreeEnd]
      omega
    · simp [initPage]

theorem C3_construction_witness :
    NewHeapPage 4096 (fun _ => 0) = some (initPage 4096 (fun _ => 0)) ∧
      freeEnd (initPage 4096 (fun _ => 0)) = 4096 := by
  have h := (C3_construction 4096 (fun _ => 0)).2 (by omega) (by decide) (by decide) (by decide)
  refine ⟨h.1, ?_⟩
  rw [h.2.2.2.1]

/-- Counterexample to C3 as stated: a 65536-byte all-zero buffer is
auto-initialized with `freeEnd = 0`, not `freeEnd = len(buf) = 65536`
(`uint16(65536)` wraps to `0`). -/
theorem C3_counterexample :
    NewHeapPage 65536 (fun _ => 0) = some (freshPage 65536) ∧
      freeEnd (freshPage 65536) = 0 ∧ freeEnd (freshPage 65536) ≠ 65536 :=
  ⟨NewHeapPage_zero 65536 (by omega), by decide, by decide⟩

/-- C5: with at least `len(R) + 4` bytes of free space, `Insert(R)` returns
the pre-call `slotCount` as slot ID, stores the bytes in
`[freeEnd - len R, freeEnd)`, appends the directory entry
`(freeEnd - len R, len R)`, increments `slotCount`, advances `freeStart` by
4, sets `freeEnd` to the new offset, and leaves the old directory entries
and all bytes at or above the old `freeEnd` untouched. -/
theorem C5_insert_spec (p : HeapPage) (rec : List Nat)
    (hb : ∀ i, i < freeStart p → p.data i < 256)
    (hfs : freeStart p = 8 + 4 * slotCount p)
    (hes : freeEnd p ≤ p.size)
    (hfree : rec.length + 4 ≤ freeSpace p) :
    Insert p rec = .ok (slotCount p) (insertOkPage p rec) ∧
    slotCount (insertOkPage p rec) = slotCount p + 1 ∧
    freeStart (insertOkPage p rec) = freeStart p + 4 ∧
    freeEnd (insertOkPage p rec) = freeEnd p - rec.length ∧
    readU16 (insertOkPage p rec) (8 + 4 * slotCount p) = freeEnd p - rec.length ∧
    readU16 (insertOkPage p rec) (8 + 4 * slotCount p + 2) = rec.length ∧
    (∀ k, k < rec.length →
      (insertOkPage p rec).data (freeEnd p - rec.length + k) = rec.getD k 0) ∧
    (∀ i, i < slotCount p →
      readU16 (insertOkPage p rec) (8 + 4 * i) = readU16 p (8 + 4 * i) ∧
      readU16 (insertOkPage p rec) (8 + 4 * i + 2) = readU16 p (8 + 4 * i + 2)) ∧
    (∀ j, freeEnd p ≤ j → (insertOkPage p rec).data j = p.data j) := by
  have he16 : freeEnd p < 65536 := by
    have h4 := hb 4 (by omega)
    have h5 : p.data (4 + 1) < 256 := hb 5 (by omega)
    show readU16 p 4 < 65536
    unfold readU16
    omega
  have hsp : freeSpace p < 65536 := by
    unfold HeapPage.freeSpace
    split <;> omega
  have hL : rec.length % 65536 = rec.length := Nat.mod_eq_of_lt (by omega)
  have hroom : freeStart p + rec.length % 65536 + 4 ≤ freeEnd p := by
    unfold HeapPage.freeSpace at hfree
    split at hfree <;> omega
  have hIns : InsOK p rec := ⟨hb, hfs, hes, he16, hroom⟩
  refine ⟨Insert_success p rec hIns, slotCount_insertOkPage p rec hIns,
    freeStart_insertOkPage p rec hIns, ?_, ?_, ?_, ?_, ?_, ?_⟩
  · rw [freeEnd_insertOkPage p rec hIns, hL]
  · rw [slotOff_insertOkPage_new p rec hIns, hL]
  · rw [slotLen_insertOkPage_new p rec hIns, hL]
  · intro k hk
    have h := data_insertOkPage_rec p rec k hIns (by omega)
    rwa [hL] at h
  · intro i hi
    exact ⟨slotOff_insertOkPage_old p rec i hIns hi, slotLen_insertOkPage_old p rec i hIns hi⟩
  · intro j hj
    exact data_insertOkPage_hi p rec j hIns hj

theorem C5_insert_spec_witness :
    Insert (freshPage 4096) (List.replicate 100 7) =
      .ok 0 (insertOkPage (freshPage 4096) (List.replicate 100 7)) ∧
    freeStart (insertOkPage (freshPage 4096) (List.replicate 100 7)) = 12 ∧
    freeEnd (insertOkPage (freshPage 4096) (List.replicate 100 7)) = 3996 ∧
    readU16 (insertOkPage (freshPage 4096) (List.replicate 100 7))
      (8 + 4 * slotCount (freshPage 4096)) = 3996 := by
  have h := C5_insert_spec (freshPage 4096) (List.replicate 100 7) (by decide) (by decide)
    (by decide) (by decide)
  refine ⟨?_, ?_, ?_, ?_⟩
  · have h1 := h.1
    rwa [show slotCount (freshPage 4096) = 0 from by decide] at h1
  · rw [h.2.2.1]
    decide
  · rw [h.2.2.2.1]
    decide
  · rw [h.2.2.2.2.1]
    decide

/-- C10: inserting a zero-length record succeeds (4 free bytes suffice) and
returns the fresh slot ID `slotCount`, but the stored length `0` is exactly
the tombstone encoding, so `Get` on the new slot immediately reports
not-found and `Delete` on it fails too. -/
theorem C10_empty_record (p : HeapPage)
    (hb : ∀ i, i < freeStart p → p.data i < 256)
    (hfs : freeStart p = 8 + 4 * slotCount p)
    (hes : freeEnd p ≤ p.size)
    (hfree : 4 ≤ freeSpace p) :
    Insert p [] = .ok (slotCount p) (insertOkPage p []) ∧
    Get (insertOkPage p []) ((slotCount p : Int)) = .notFound ∧
    Delete (insertOkPage p []) ((slotCount p : Int)) = .notFound (insertOkPage p []) := by
  have he16 : freeEnd p < 65536 := by
    have h4 := hb 4 (by omega)
    have h5 : p.data (4 + 1) < 256 := hb 5 (by omega)
    show readU16 p 4 < 65536
    unfold readU16
    omega
  have hroom : freeStart p + List.length ([] : List Nat) % 65536 + 4 ≤ freeEnd p := by
    have h0 : List.length ([] : List Nat) % 65536 = 0 := rfl
    rw [h0]
    unfold HeapPage.freeSpace at hfree
    split at hfree <;> omega
  have hIns : InsOK p [] := ⟨hb, hfs, hes, he16, hroom⟩
  have hlen : readU16 (insertOkPage p []) (8 + 4 * slotCount p + 2) = 0 := by
    rw [slotLen_insertOkPage_new p [] hIns]
    decide
  refine ⟨Insert_success p [] hIns, ?_, ?_⟩
  · rw [Get_eval _ (slotCount p) (by rw [slotCount_insertOkPage p [] hIns]; omega)
      (by rw [size_insertOkPage]; omega)]
    rw [if_pos hlen]
  · unfold Delete
    rw [slot_coe _ (slotCount p), if_neg (by rw [slotCount_insertOkPage p [] hIns]; omega),
      if_neg (by rw [size_insertOkPage]; omega)]
    simp only []
    rw [if_pos hlen]

theorem C10_empty_record_witness :
    Get (insertOkPage (freshPage 4096) []) ((slotCount (freshPage 4096) : Int)) = .notFound ∧
    Delete (insertOkPage (freshPage 4096) []) ((slotCount (freshPage 4096) : Int)) =
      .notFound (insertOkPage (freshPage 4096) []) := by
  have h := C10_empty_record (freshPage 4096) (by decide) (by decide) (by decide) (by decide)
  exact ⟨h.2.1, h.2.2⟩


/-- C6: whenever `Update(s, R2)` succeeds, the new record is assigned to
slot ID `slotCount_before_update` (its directory entry records the new
offset and `len(R2)`), the slot count grows by one, and `Get(s)` on the old
slot afterwards reports not-found; for record lengths in `(0, 65536)` the
new slot retrieves exactly `R2`. -/
theorem C6_update_identity_drift (p : HeapPage) (s : Nat) (rec : List Nat) (q : HeapPage)
    (hb : ∀ i, i < freeStart p → p.data i < 256)
    (hfs : freeStart p = 8 + 4 * slotCount p)
    (hss : freeStart p ≤ p.size)
    (hes : freeEnd p ≤ p.size)
    (hfe31 : freeEnd p ≤ 65531)
    (hupd : Update p (s : Int) rec = .ok q) :
    slotCount q = slotCount p + 1 ∧
    readU16 q (8 + 4 * slotCount p) = freeEnd p - rec.length % 65536 ∧
    readU16 q (8 + 4 * slotCount p + 2) = rec.length % 65536 ∧
    Get q (s : Int) = .notFound ∧
    (0 < rec.length → rec.length < 65536 → Get q ((slotCount p : Int)) = .ok rec) := by
  unfold Update at hupd
  rcases hD : Delete p (s : Int) with T | T | _ | _ <;> rw [hD] at hupd <;>
    try exact UpdOut.noConfusion hupd
  simp only [] at hupd
  cases hI : Insert T rec with
  | full r => rw [hI] at hupd; exact UpdOut.noConfusion hupd
  | oob => rw [hI] at hupd; exact UpdOut.noConfusion hupd
  | panicked => rw [hI] at hupd; exact UpdOut.noConfusion hupd
  | ok sid r =>
  rw [hI] at hupd
  injection hupd with hrq
  subst hrq
  obtain ⟨hsc, hsz, hln, hT⟩ := Delete_ok_inversion p s T hD
  subst hT
  obtain ⟨hIns, hsid, hq⟩ := Insert_ok_inversion (tombstonePage p s) rec sid r
    (fun i hi => data_tombstonePage_lt256 p s i
      (hb i (by rw [freeStart_tombstonePage] at hi; exact hi)))
    (by rw [freeStart_tombstonePage, slotCount_tombstonePage]; exact hfs)
    (by rw [freeEnd_tombstonePage, size_tombstonePage]; exact hes)
    (by rw [freeEnd_tombstonePage]; exact hfe31)
    hI
  subst hq
  have hroomT := hIns.2.2.2.2
  rw [freeStart_tombstonePage, freeEnd_tombstonePage] at hroomT
  refine ⟨?_, ?_, ?_, ?_, ?_⟩
  · rw [slotCount_insertOkPage _ rec hIns, slotCount_tombstonePage]
  · rw [show 8 + 4 * slotCount p = 8 + 4 * slotCount (tombstonePage p s) from by
      rw [slotCount_tombstonePage]]
    rw [slotOff_insertOkPage_new _ rec hIns, freeEnd_tombstonePage]
  · rw [show 8 + 4 * slotCount p = 8 + 4 * slotCount (tombstonePage p s) from by
      rw [slotCount_tombstonePage]]
    rw [slotLen_insertOkPage_new _ rec hIns]
  · rw [Get_eval _ s
      (by rw [slotCount_insertOkPage _ rec hIns, slotCount_tombstonePage]; omega)
      (by rw [size_insertOkPage, size_tombstonePage]; omega)]
    rw [show (8 : Nat) + 4 * s + 2 = 8 + 4 * s + 2 from rfl]
    have hlen0 : readU16 (insertOkPage (tombstonePage p s) rec) (8 + 4 * s + 2) = 0 := by
      rw [slotLen_insertOkPage_old _ rec s hIns (by rw [slotCount_tombstonePage]; omega)]
      exact slotLen_tombstonePage_self p s
    rw [if_pos hlen0]
  · intro hpos hlt
    have hL : rec.length % 65536 = rec.length := Nat.mod_eq_of_lt hlt
    rw [Get_eval _ (slotCount p)
      (by rw [slotCount_insertOkPage _ rec hIns, slotCount_tombstonePage]; omega)
      (by rw [size_insertOkPage, size_tombstonePage]; omega)]
    rw [show 8 + 4 * slotCount p = 8 + 4 * slotCount (tombstonePage p s) from by
      rw [slotCount_tombstonePage]]
    rw [slotLen_insertOkPage_new _ rec hIns, slotOff_insertOkPage_new _ rec hIns,
      freeEnd_tombstonePage, hL]
    rw [if_neg (by omega), if_neg (by rw [size_insertOkPage, size_tombstonePage]; omega)]
    have hmap : (List.range rec.length).map
        (fun k => (insertOkPage (tombstonePage p s) rec).data (freeEnd p - rec.length + k)) =
        (List.range rec.length).map (fun k => rec.getD k 0) := by
      refine range_map_congr _ _ _ fun k hk => ?_
      have h := data_insertOkPage_rec (tombstonePage p s) rec k hIns (by omega)
      rw [freeEnd_tombstonePage, hL] at h
      exact h
    rw [hmap, range_map_getD]


/-- C8: deleting a live slot `s` only zeroes that slot's stored length: the
stored offset and the record's physical bytes survive, `Get(s)` then reports
not-found, every other slot's `Get` result is unchanged, and
`freeStart`/`freeEnd`/`freeSpace` do not move (no reclamation). -/
theorem C8_delete_frame (p : HeapPage) (s : Nat)
    (hb : ∀ i, i < freeStart p → p.data i < 256)
    (hfs : freeStart p = 8 + 4 * slotCount p)
    (hss : freeStart p ≤ p.size)
    (hsc : s < slotCount p)
    (hln : readU16 p (8 + 4 * s + 2) ≠ 0)
    (hrec : ∀ t, t < slotCount p → readU16 p (8 + 4 * t + 2) ≠ 0 →
      freeStart p ≤ readU16 p (8 + 4 * t)) :
    Delete p (s : Int) = .ok (tombstonePage p s) ∧
    readU16 (tombstonePage p s) (8 + 4 * s) = readU16 p (8 + 4 * s) ∧
    readU16 (tombstonePage p s) (8 + 4 * s + 2) = 0 ∧
    (∀ k, k < readU16 p (8 + 4 * s + 2) →
      (tombstonePage p s).data (readU16 p (8 + 4 * s) + k) =
        p.data (readU16 p (8 + 4 * s) + k)) ∧
    Get (tombstonePage p s) (s : Int) = .notFound ∧
    (∀ t : Nat, t ≠ s → Get (tombstonePage p s) (t : Int) = Get p (t : Int)) ∧
    freeStart (tombstonePage p s) = freeStart p ∧
    freeEnd (tombstonePage p s) = freeEnd p ∧
    freeSpace (tombstonePage p s) = freeSpace p := by
  have hoffs := hrec s hsc hln
  refine ⟨Delete_success p s hsc (by omega) hln,
    slotOff_tombstonePage_self p s hb hfs hsc,
    slotLen_tombstonePage_self p s, ?_, ?_, ?_,
    freeStart_tombstonePage p s, freeEnd_tombstonePage p s, freeSpace_tombstonePage p s⟩
  · intro k hk
    exact data_tombstonePage p s _ hb hfs hsc (by omega) (by omega)
  · rw [Get_eval _ s (by rw [slotCount_tombstonePage]; exact hsc)
      (by rw [size_tombstonePage]; omega)]
    rw [if_pos (slotLen_tombstonePage_self p s)]
  · intro t ht
    by_cases htc : slotCount p ≤ t
    · rw [Get_ge_count p t htc, Get_ge_count _ t (by rw [slotCount_tombstonePage]; exact htc)]
    · push_neg at htc
      rw [Get_eval _ t (by rw [slotCount_tombstonePage]; exact htc)
        (by rw [size_tombstonePage]; omega),
        Get_eval p t htc (by omega)]
      rw [slotLen_tombstonePage_other p s t ht, slotOff_tombstonePage_other p s t ht,
        size_tombstonePage]
      by_cases hl0 : readU16 p (8 + 4 * t + 2) = 0
      · rw [if_pos hl0, if_pos hl0]
      · rw [if_neg hl0, if_neg hl0]
        have hofft := hrec t htc hl0
        by_cases hsz2 : p.size < readU16 p (8 + 4 * t) + readU16 p (8 + 4 * t + 2)
        · rw [if_pos hsz2, if_pos hsz2]
        · rw [if_neg hsz2, if_neg hsz2]
          refine congrArg GetOut.ok (range_map_congr _ _ _ fun k hk => ?_)
          exact data_tombstonePage p s _ hb hfs hsc (by omega) (by omega)

/-- The page after inserting a 100-byte and then a 50-byte record into a
fresh 4096-byte page (spec scenarios 2-4): slots `0 ↦ (3996, 100)` and
`1 ↦ (3946, 50)`, `freeStart = 16`, `freeEnd = 3946`. -/
def twoPage4096 : HeapPage :=
  (Insert ((Insert (freshPage 4096) (List.replicate 100 7)).pageD (freshPage 4096))
    (List.replicate 50 9)).pageD (freshPage 4096)

theorem C8_delete_frame_witness :
    Get (tombstonePage twoPage4096 0) (0 : Int) = .notFound ∧
    Get (tombstonePage twoPage4096 0) (1 : Int) = Get twoPage4096 (1 : Int) ∧
    freeSpace (tombstonePage twoPage4096 0) = freeSpace twoPage4096 := by
  have h := C8_delete_frame twoPage4096 0 (by decide) (by decide) (by decide) (by decide)
    (by decide) (by decide)
  exact ⟨h.2.2.2.2.1, h.2.2.2.2.2.1 1 (by decide), h.2.2.2.2.2.2.2.2⟩

theorem C6_update_identity_drift_witness :
    slotCount ((Update twoPage4096 (0 : Int) [1, 2, 3]).pageD twoPage4096) = 3 ∧
    Get ((Update twoPage4096 (0 : Int) [1, 2, 3]).pageD twoPage4096) (0 : Int) = .notFound := by
  have h := C6_update_identity_drift twoPage4096 0 [1, 2, 3]
    ((Update twoPage4096 (0 : Int) [1, 2, 3]).pageD twoPage4096)
    (by decide) (by decide) (by decide) (by decide) (by decide) (by rfl)
  refine ⟨?_, h.2.2.2.1⟩
  rw [h.1]
  decide


theorem Insert_full_of (p : HeapPage) (rec : List Nat)
    (h : freeSpace p < (rec.length % 65536 + 4) % 65536) :
    Insert p rec = .full p := by
  simp only [HeapPage.Insert]
  rw [if_pos h]

theorem Insert_cases (p : HeapPage) (rec : List Nat)
    (hb : ∀ i, i < freeStart p → p.data i < 256)
    (hfs : freeStart p = 8 + 4 * slotCount p)
    (hes : freeEnd p ≤ p.size) (hfe31 : freeEnd p ≤ 65531) :
    Insert p rec = .full p ∨ Insert p rec = .oob ∨
      (InsOK p rec ∧ Insert p rec = .ok (slotCount p) (insertOkPage p rec)) := by
  by_cases hfull : freeSpace p < (rec.length % 65536 + 4) % 65536
  · exact Or.inl (Insert_full_of p rec hfull)
  · by_cases hoob : freeEnd p < (freeEnd p + (65536 - rec.length % 65536)) % 65536 ∨
        p.size < freeEnd p
    · exact Or.inr (Or.inl (Insert_oob_of p rec hfull hoob))
    · push_neg at hoob
      have hIns : InsOK p rec := by
        refine ⟨hb, hfs, hes, by omega, ?_⟩
        by_cases hL : rec.length % 65536 ≤ 65531
        · unfold HeapPage.freeSpace at hfull
          by_cases hES : freeEnd p < freeStart p
          · rw [if_pos hES] at hfull
            omega
          · rw [if_neg hES] at hfull
            omega
        · exfalso
          obtain ⟨hne, _⟩ := hoob
          have hl2 : rec.length % 65536 < 65536 := by omega
          omega
      exact Or.inr (Or.inr ⟨hIns, Insert_success p rec hIns⟩)

theorem Insert_ne_panicked (p : HeapPage) (rec : List Nat)
    (hb : ∀ i, i < freeStart p → p.data i < 256)
    (hfs : freeStart p = 8 + 4 * slotCount p)
    (hes : freeEnd p ≤ p.size) (hfe31 : freeEnd p ≤ 65531) :
    Insert p rec ≠ .panicked := by
  rcases Insert_cases p rec hb hfs hes hfe31 with h | h | ⟨_, h⟩ <;> rw [h] <;>
    exact fun hc => InsOut.noConfusion hc

theorem Delete_ne_panicked (p : HeapPage) (i : Int) : Delete p i ≠ .panicked := by
  intro h
  unfold Delete at h
  by_cases h1 : i < 0 ∨ (slotCount p : Int) ≤ i
  · rw [HeapPage.slot, if_pos h1] at h
    exact DelOut.noConfusion h
  · push_neg at h1
    by_cases h2 : p.size < 8 + 4 * i.toNat + 4
    · rw [HeapPage.slot, if_neg (by omega : ¬ (i < 0 ∨ (slotCount p : Int) ≤ i)), if_pos h2] at h
      exact DelOut.noConfusion h
    · rw [HeapPage.slot, if_neg (by omega : ¬ (i < 0 ∨ (slotCount p : Int) ≤ i)),
        if_neg h2] at h
      simp only [] at h
      by_cases h3 : readU16 p (8 + 4 * i.toNat + 2) = 0
      · rw [if_pos h3] at h
        exact DelOut.noConfusion h
      · rw [if_neg h3, HeapPage.setSlot, if_neg (by omega), if_neg h2] at h
        exact DelOut.noConfusion h

theorem Delete_ok_int (p : HeapPage) (i : Int) (q : HeapPage) (h : Delete p i = .ok q) :
    0 ≤ i ∧ i.toNat < slotCount p ∧ q = tombstonePage p i.toNat := by
  by_cases h1 : i < 0 ∨ (slotCount p : Int) ≤ i
  · exfalso
    unfold Delete at h
    rw [HeapPage.slot, if_pos h1] at h
    exact DelOut.noConfusion h
  · push_neg at h1
    obtain ⟨hge, hlt⟩ := h1
    have hi : ((i.toNat : Nat) : Int) = i := Int.toNat_of_nonneg hge
    rw [← hi] at h
    obtain ⟨hsc, _, _, hq⟩ := Delete_ok_inversion p i.toNat q h
    exact ⟨hge, hsc, hq⟩

/-- An operation issued against one slotted page. -/
inductive PageOp where
  | insert (rec : List Nat) : PageOp
  | read (i : Int) : PageOp
  | delete (i : Int) : PageOp
  | update (i : Int) (rec : List Nat) : PageOp

/-- Result of one operation on a page: `next` carries the buffer after the
call (errors leave it unchanged, per the definitions of the operations);
`oob`/`panicked` are process aborts, after which no further operation runs. -/
inductive StepOut where
  | next (p : HeapPage) : StepOut
  | oob : StepOut
  | panicked : StepOut

/-- Execute one operation. -/
def step (p : HeapPage) : PageOp → StepOut
  | .insert rec =>
    match Insert p rec with
    | .ok _ q => .next q
    | .full q => .next q
    | .oob => .oob
    | .panicked => .panicked
  | .read i =>
    match Get p i with
    | .ok _ => .next p
    | .notFound => .next p
    | .oob => .oob
  | .delete i =>
    match Delete p i with
    | .ok q => .next q
    | .notFound q => .next q
    | .oob => .oob
    | .panicked => .panicked
  | .update i rec =>
    match Update p i rec with
    | .ok q => .next q
    | .delErr q => .next q
    | .full q => .next q
    | .oob => .oob
    | .panicked => .panicked

/-- Result of a sequence of operations. -/
inductive RunOut where
  | done (p : HeapPage) : RunOut
  | oob : RunOut
  | panicked : RunOut

/-- Run a sequence of operations, stopping at an abort. -/
def run (p : HeapPage) : List PageOp → RunOut
  | [] => .done p
  | op :: ops =>
    match step p op with
    | .next q => run q ops
    | .oob => .oob
    | .panicked => .panicked

/-- Representation invariant maintained by every completed operation on a
page whose (auto-initialized) `freeEnd` does not sit in the top four values
of the `uint16` range. -/
def Inv (p : HeapPage) : Prop :=
  (∀ i, i < freeStart p → p.data i < 256) ∧
  8 ≤ p.size ∧
  freeStart p = 8 + 4 * slotCount p ∧
  freeStart p ≤ p.size ∧
  freeStart p ≤ 65531 ∧
  freeEnd p ≤ 65531 ∧
  freeEnd p ≤ p.size

theorem Inv_insertOkPage (p : HeapPage) (rec : List Nat) (hInv : Inv p) (hIns : InsOK p rec) :
    Inv (insertOkPage p rec) := by
  obtain ⟨hbv, h8, hfsv, hfss, hfs31, hfe31, hfes⟩ := hInv
  have hroom := hIns.2.2.2.2
  refine ⟨?_, ?_, ?_, ?_, ?_, ?_, ?_⟩
  · intro i hi
    rw [freeStart_insertOkPage p rec hIns] at hi
    exact data_insertOkPage_lt256 p rec i hIns hi
  · rw [size_insertOkPage]
    exact h8
  · rw [freeStart_insertOkPage p rec hIns, slotCount_insertOkPage p rec hIns]
    omega
  · rw [freeStart_insertOkPage p rec hIns, size_insertOkPage]
    omega
  · rw [freeStart_insertOkPage p rec hIns]
    omega
  · rw [freeEnd_insertOkPage p rec hIns]
    omega
  · rw [freeEnd_insertOkPage p rec hIns, size_insertOkPage]
    omega

theorem Inv_tombstonePage (p : HeapPage) (s : Nat) (hInv : Inv p) :
    Inv (tombstonePage p s) := by
  obtain ⟨hbv, h8, hfsv, hfss, hfs31, hfe31, hfes⟩ := hInv
  refine ⟨?_, ?_, ?_, ?_, ?_, ?_, ?_⟩ <;>
    simp only [freeStart_tombstonePage, freeEnd_tombstonePage, slotCount_tombstonePage,
      size_tombstonePage]
  · intro i hi
    exact data_tombstonePage_lt256 p s i (hbv i hi)
  all_goals assumption

theorem step_sound (p : HeapPage) (op : PageOp) (hInv : Inv p) :
    step p op = .oob ∨
      ∃ q, step p op = .next q ∧ Inv q ∧ freeStart p ≤ freeStart q ∧ freeEnd q ≤ freeEnd p := by
  obtain ⟨hbv, h8, hfsv, hfss, hfs31, hfe31, hfes⟩ := hInv
  have hInv2 : Inv p := ⟨hbv, h8, hfsv, hfss, hfs31, hfe31, hfes⟩
  cases op with
  | insert rec =>
    rcases Insert_cases p rec hbv hfsv hfes hfe31 with h | h | ⟨hIns, h⟩
    · exact Or.inr ⟨p, by simp only [step, h], hInv2, le_refl _, le_refl _⟩
    · exact Or.inl (by simp only [step, h])
    · refine Or.inr ⟨insertOkPage p rec, by simp only [step, h],
        Inv_insertOkPage p rec hInv2 hIns, ?_, ?_⟩
      · rw [freeStart_insertOkPage p rec hIns]
        omega
      · rw [freeEnd_insertOkPage p rec hIns]
        omega
  | read i =>
    cases hG : Get p i with
    | ok bytes => exact Or.inr ⟨p, by simp only [step, hG], hInv2, le_refl _, le_refl _⟩
    | notFound => exact Or.inr ⟨p, by simp only [step, hG], hInv2, le_refl _, le_refl _⟩
    | oob => exact Or.inl (by simp only [step, hG])
  | delete i =>
    cases hDel : Delete p i with
    | ok q =>
      obtain ⟨hge, hlt, hq⟩ := Delete_ok_int p i q hDel
      subst hq
      exact Or.inr ⟨tombstonePage p i.toNat, by simp only [step, hDel],
        Inv_tombstonePage p i.toNat hInv2,
        by rw [freeStart_tombstonePage], by rw [freeEnd_tombstonePage]⟩
    | notFound q =>
      have hq := Delete_notFound_eq p i q hDel
      subst hq
      exact Or.inr ⟨q, by simp only [step, hDel], hInv2, le_refl _, le_refl _⟩
    | oob => exact Or.inl (by simp only [step, hDel])
    | panicked => exact absurd hDel (Delete_ne_panicked p i)
  | update i rec =>
    cases hU : Update p i rec with
    | ok q =>
      have hq : ∃ T, Delete p i = .ok T ∧ Insert T rec = .ok (slotCount T) (insertOkPage T rec) ∧
          InsOK T rec ∧ q = insertOkPage T rec := by
        unfold Update at hU
        cases hD : Delete p i with
        | ok T =>
          rw [hD] at hU
          simp only [] at hU
          obtain ⟨hge, hlt, hT⟩ := Delete_ok_int p i T hD
          have hInvT : Inv T := hT ▸ Inv_tombstonePage p i.toNat hInv2
          obtain ⟨hbT, h8T, hfsT, hfssT, hfs31T, hfe31T, hfesT⟩ := hInvT
          cases hI : Insert T rec with
          | ok sid r =>
            rw [hI] at hU
            injection hU with hrq
            obtain ⟨hIns, hsid, hr⟩ := Insert_ok_inversion T rec sid r hbT hfsT hfesT hfe31T hI
            refine ⟨T, rfl, ?_, hIns, by rw [← hrq, hr]⟩
            rw [← hsid, ← hr]
            exact hI
          | full r => rw [hI] at hU; exact absurd hU (fun hc => UpdOut.noConfusion hc)
          | oob => rw [hI] at hU; exact absurd hU (fun hc => UpdOut.noConfusion hc)
          | panicked => rw [hI] at hU; exact absurd hU (fun hc => UpdOut.noConfusion hc)
        | notFound T => rw [hD] at hU; exact absurd hU (fun hc => UpdOut.noConfusion hc)
        | oob => rw [hD] at hU; exact absurd hU (fun hc => UpdOut.noConfusion hc)
        | panicked => rw [hD] at hU; exact absurd hU (fun hc => UpdOut.noConfusion hc)
      obtain ⟨T, hD, hI, hIns, hq⟩ := hq
      obtain ⟨hge, hlt, hT⟩ := Delete_ok_int p i T hD
      have hInvT : Inv T := hT ▸ Inv_tombstonePage p i.toNat hInv2
      subst hq
      refine Or.inr ⟨insertOkPage T rec, by simp only [step, hU],
        Inv_insertOkPage T rec hInvT hIns, ?_, ?_⟩
      · rw [freeStart_insertOkPage T rec hIns, hT, freeStart_tombstonePage]
        omega
      · rw [freeEnd_insertOkPage T rec hIns, hT, freeEnd_tombstonePage]
        omega
    | delErr q =>
      have hq := Update_delErr_eq p i rec q hU
      subst hq
      exact Or.inr ⟨q, by simp only [step, hU], hInv2, le_refl _, le_refl _⟩
    | full q =>
      have hq : ∃ T, Delete p i = .ok T ∧ Insert T rec = .full q := by
        unfold Update at hU
        cases hD : Delete p i with
        | ok T =>
          rw [hD] at hU
          simp only [] at hU
          cases hI : Insert T rec with
          | ok sid r => rw [hI] at hU; exact absurd hU (fun hc => UpdOut.noConfusion hc)
          | full r =>
            rw [hI] at hU
            injection hU with hrq
            exact ⟨T, rfl, by rw [hrq] at hI; exact hI⟩
          | oob => rw [hI] at hU; exact absurd hU (fun hc => UpdOut.noConfusion hc)
          | panicked => rw [hI] at hU; exact absurd hU (fun hc => UpdOut.noConfusion hc)
        | notFound T => rw [hD] at hU; exact absurd hU (fun hc => UpdOut.noConfusion hc)
        | oob => rw [hD] at hU; exact absurd hU (fun hc => UpdOut.noConfusion hc)
        | panicked => rw [hD] at hU; exact absurd hU (fun hc => UpdOut.noConfusion hc)
      obtain ⟨T, hD, hI⟩ := hq
      obtain ⟨hge, hlt, hT⟩ := Delete_ok_int p i T hD
      have hqT := Insert_full_eq T rec q hI
      subst hqT
      subst hT
      refine Or.inr ⟨tombstonePage p i.toNat, by simp only [step, hU],
        Inv_tombstonePage p i.toNat hInv2,
        by rw [freeStart_tombstonePage], by rw [freeEnd_tombstonePage]⟩
    | oob => exact Or.inl (by simp only [step, hU])
    | panicked =>
      exfalso
      unfold Update at hU
      cases hD : Delete p i with
      | ok T =>
        rw [hD] at hU
        simp only [] at hU
        obtain ⟨hge, hlt, hT⟩ := Delete_ok_int p i T hD
        have hInvT : Inv T := hT ▸ Inv_tombstonePage p i.toNat hInv2
        obtain ⟨hbT, h8T, hfsT, hfssT, hfs31T, hfe31T, hfesT⟩ := hInvT
        cases hI : Insert T rec with
        | ok sid r => rw [hI] at hU; exact UpdOut.noConfusion hU
        | full r => rw [hI] at hU; exact UpdOut.noConfusion hU
        | oob => rw [hI] at hU; exact UpdOut.noConfusion hU
        | panicked => exact Insert_ne_panicked T rec hbT hfsT hfesT hfe31T hI
      | notFound T => rw [hD] at hU; exact UpdOut.noConfusion hU
      | oob => rw [hD] at hU; exact UpdOut.noConfusion hU
      | panicked => exact Delete_ne_panicked p i hD

theorem run_done_sound (ops : List PageOp) : ∀ p q : HeapPage, Inv p → run p ops = .done q →
    Inv q ∧ freeStart p ≤ freeStart q ∧ freeEnd q ≤ freeEnd p := by
  induction ops with
  | nil =>
    intro p q hInv hr
    unfold run at hr
    injection hr with h1
    subst h1
    exact ⟨hInv, le_refl _, le_refl _⟩
  | cons op ops ih =>
    intro p q hInv hr
    unfold run at hr
    rcases step_sound p op hInv with hoob | ⟨r, hstep, hInvr, hs, he⟩
    · rw [hoob] at hr
      exact RunOut.noConfusion hr
    · rw [hstep] at hr
      simp only [] at hr
      obtain ⟨hq, hs2, he2⟩ := ih r q hInvr hr
      exact ⟨hq, by omega, by omega⟩

theorem run_ne_panicked (ops : List PageOp) : ∀ p : HeapPage, Inv p →
    run p ops ≠ .panicked := by
  induction ops with
  | nil =>
    intro p _ h
    exact RunOut.noConfusion h
  | cons op ops ih =>
    intro p hInv h
    unfold run at h
    rcases step_sound p op hInv with hoob | ⟨r, hstep, hInvr, _, _⟩
    · rw [hoob] at h
      exact RunOut.noConfusion h
    · rw [hstep] at h
      simp only [] at h
      exact ih r hInvr h

theorem Inv_freshPage (n : Nat) (h8 : 8 ≤ n) (hn : n % 65536 ≤ 65531) :
    Inv (freshPage n) := by
  have hsc : slotCount (freshPage n) = 0 := by
    simp [freshPage]
  have hfs : freeStart (freshPage n) = 8 := by
    simp [freshPage]
  have hfe : freeEnd (freshPage n) = n % 65536 := by
    simp only [freshPage, freeEnd_setFlags, freeEnd_setFreeEnd]
    omega
  have hsz : (freshPage n).size = n := rfl
  refine ⟨?_, ?_, ?_, ?_, ?_, ?_, ?_⟩
  · intro i _
    simp only [freshPage, HeapPage.setFlags, HeapPage.setFreeEnd, HeapPage.setFreeStart,
      HeapPage.setSlotCount]
    refine data_writeU16_lt256 _ _ _ _ (data_writeU16_lt256 _ _ _ _ (data_writeU16_lt256 _ _ _ _
      (data_writeU16_lt256 _ _ _ _ ?_)))
    show (0 : Nat) < 256
    omega
  · rw [hsz]
    exact h8
  · rw [hfs, hsc]
  · rw [hfs, hsz]
    omega
  · rw [hfs]
    omega
  · rw [hfe]
    exact hn
  · rw [hfe, hsz]
    omega


/-- The page carried by a `Delete` outcome (default for the abort cases). -/
def HeapPage.DelOut.pageD : DelOut → HeapPage → HeapPage
  | .ok p, _ => p
  | .notFound p, _ => p
  | _, d => d

/-- C7 (amended): starting from a freshly initialized page whose buffer
length is at most 65531 modulo 65536 (every legal pager page size
qualifies), `freeStart` never decreases and `freeEnd` never increases
across any completed sequence of `Insert`/`Get`/`Delete`/`Update` calls. -/
theorem C7_monotonic_freeSpace (n : Nat) (ops1 ops2 : List PageOp) (p1 p2 : HeapPage)
    (h8 : 8 ≤ n) (hn : n % 65536 ≤ 65531)
    (h1 : run (freshPage n) ops1 = .done p1)
    (h2 : run p1 ops2 = .done p2) :
    freeStart p1 ≤ freeStart p2 ∧ freeEnd p2 ≤ freeEnd p1 := by
  obtain ⟨hInv1, _, _⟩ := run_done_sound ops1 (freshPage n) p1 (Inv_freshPage n h8 hn) h1
  obtain ⟨_, hs, he⟩ := run_done_sound ops2 p1 p2 hInv1 h2
  exact ⟨hs, he⟩

/-- Fresh 4096-byte page after `Insert([5])`. -/
def oneIns4096 : HeapPage := (Insert (freshPage 4096) [5]).pageD (freshPage 4096)

/-- `oneIns4096` after `Delete(0)`. -/
def oneInsDel4096 : HeapPage := (Delete oneIns4096 (0 : Int)).pageD oneIns4096

theorem C7_monotonic_freeSpace_witness :
    freeStart oneIns4096 ≤ freeStart oneInsDel4096 ∧
      freeEnd oneInsDel4096 ≤ freeEnd oneIns4096 :=
  C7_monotonic_freeSpace 4096 [.insert [5]] [.delete 0] oneIns4096 oneInsDel4096
    (by omega) (by omega) (by rfl) (by rfl)

/-- C9 (amended): from a freshly initialized page whose length is at most
65531 modulo 65536, no sequence of operations ever reaches the explicit
`panic` in `setSlot`. -/
theorem C9_setSlot_panic_unreachable (n : Nat) (ops : List PageOp)
    (h8 : 8 ≤ n) (hn : n % 65536 ≤ 65531) :
    run (freshPage n) ops ≠ .panicked :=
  run_ne_panicked ops (freshPage n) (Inv_freshPage n h8 hn)

theorem C9_setSlot_panic_unreachable_witness :
    run (freshPage 4096) [.insert [1], .update 0 [2, 3]] ≠ .panicked :=
  C9_setSlot_panic_unreachable 4096 [.insert [1], .update 0 [2, 3]] (by omega) (by omega)


theorem setSlot_panicked_of (p : HeapPage) (i off ln : Nat) (h : slotCount p < i) :
    p.setSlot i off ln = .panicked := by
  rw [HeapPage.setSlot, if_pos h]

theorem setSlot_ok_of (p : HeapPage) (i off ln : Nat)
    (h1 : ¬ slotCount p < i) (h2 : ¬ p.size < 8 + 4 * i + 4) :
    p.setSlot i off ln = .ok (writeU16 (writeU16 p (8 + 4 * i) off) (8 + 4 * i + 2) ln) := by
  rw [HeapPage.setSlot, if_neg h1, if_neg h2]

/-- Symbolic execution of `Insert` down to the `setSlot` panic, with the
values of the intermediate reads supplied as hypotheses. -/
theorem Insert_panics_script (p : HeapPage) (rec : List Nat) (ne m sc1 fs1 : Nat)
    (hno : ¬ freeSpace p < (rec.length % 65536 + 4) % 65536)
    (hnoob : ¬ (freeEnd p < (freeEnd p + (65536 - rec.length % 65536)) % 65536 ∨
      p.size < freeEnd p))
    (hA : (freeEnd p + (65536 - rec.length % 65536)) % 65536 = ne)
    (hmin : min (freeEnd p - ne) rec.length = m)
    (hsc : (copyInto p ne m rec).slotCount = sc1)
    (hfs : ((copyInto p ne m rec).setSlotCount (sc1 + 1)).freeStart = fs1)
    (hguard : HeapPage.slotCount (((copyInto p ne m rec).setSlotCount (sc1 + 1)).setFreeStart
      (fs1 + 4)) < sc1) :
    Insert p rec = .panicked := by
  subst hA
  subst hmin
  subst hsc
  subst hfs
  simp only [HeapPage.Insert]
  rw [if_neg hno, if_neg hnoob, setSlot_panicked_of _ _ _ _ hguard]

/-- Symbolic execution of `Insert` down to a successful return, with the
values of the intermediate reads supplied as hypotheses. -/
theorem Insert_ok_script (p : HeapPage) (rec : List Nat) (ne m sc1 fs1 : Nat)
    (hno : ¬ freeSpace p < (rec.length % 65536 + 4) % 65536)
    (hnoob : ¬ (freeEnd p < (freeEnd p + (65536 - rec.length % 65536)) % 65536 ∨
      p.size < freeEnd p))
    (hA : (freeEnd p + (65536 - rec.length % 65536)) % 65536 = ne)
    (hmin : min (freeEnd p - ne) rec.length = m)
    (hsc : (copyInto p ne m rec).slotCount = sc1)
    (hfs : ((copyInto p ne m rec).setSlotCount (sc1 + 1)).freeStart = fs1)
    (hguard : ¬ HeapPage.slotCount (((copyInto p ne m rec).setSlotCount (sc1 + 1)).setFreeStart
      (fs1 + 4)) < sc1)
    (hsz : ¬ (((copyInto p ne m rec).setSlotCount (sc1 + 1)).setFreeStart (fs1 + 4)).size <
      8 + 4 * sc1 + 4) :
    Insert p rec = .ok sc1
      ((writeU16 (writeU16 (((copyInto p ne m rec).setSlotCount (sc1 + 1)).setFreeStart (fs1 + 4))
          (8 + 4 * sc1) ne) (8 + 4 * sc1 + 2) (rec.length % 65536)).setFreeEnd ne) := by
  subst hA
  subst hmin
  subst hsc
  subst hfs
  simp only [HeapPage.Insert]
  rw [if_neg hno, if_neg hnoob, setSlot_ok_of _ _ _ _ hguard hsz]

/-- The 65533-byte all-zero record of the C7 counterexample. -/
def cexRec7 : List Nat := List.replicate 65533 0

/-- The 65535-byte record `FF FF 00 …` of the C9 counterexample. -/
def cexRec9 : List Nat := 255 :: 255 :: List.replicate 65533 0

theorem cexRec7_length : cexRec7.length = 65533 := by
  show (List.replicate 65533 (0 : Nat)).length = 65533
  rw [List.length_replicate]

theorem cexRec9_length : cexRec9.length = 65535 := by
  show (255 :: 255 :: List.replicate 65533 (0 : Nat)).length = 65535
  rw [List.length_cons, List.length_cons, List.length_replicate]

/-- Counterexample to C9 as stated: `pageSize = 65535` is smaller than
65536, yet a single `Insert` of the 65535-byte record `FF FF 00 …` into the
fresh page reaches `setSlot`'s explicit panic: `newEnd` wraps to `0`, the
record `copy` overwrites the whole header, `slotCount()` then reads `0xFFFF`
from the record bytes, `setSlotCount(0xFFFF + 1)` wraps to `0`, and the
guard `i > slotCount` in `setSlot` fires. -/
theorem C9_counterexample :
    Insert (freshPage 65535) cexRec9 = .panicked ∧ (65535 : Nat) < 65536 := by
  refine ⟨?_, by omega⟩
  refine Insert_panics_script (freshPage 65535) cexRec9 0 65535 65535 0 ?_ ?_ ?_ ?_ ?_ ?_ ?_
  · simp only [cexRec9_length]
    decide
  · simp only [cexRec9_length]
    decide
  · simp only [cexRec9_length]
    decide
  · simp only [cexRec9_length]
    decide
  · decide
  · decide
  · decide

/-- Counterexample to C7 as stated: on a freshly initialized 65535-byte
page, inserting a 65533-byte record *succeeds* (the wrapped `need` passes
the full-page check and the wrapped `newEnd = 2` stays in bounds), but the
record `copy` overwrites the header's `freeStart` field, which drops from 8
to 4 — `freeStart` is not monotonically non-decreasing. -/
theorem C7_counterexample :
    freeStart (freshPage 65535) = 8 ∧
    (Insert (freshPage 65535) cexRec7).isOk = true ∧
    freeStart ((Insert (freshPage 65535) cexRec7).pageD (freshPage 65535)) = 4 := by
  have h6 : ((copyInto (freshPage 65535) 2 65533 cexRec7).setSlotCount
      (0 + 1)).freeStart = 0 := by decide
  have hIns : Insert (freshPage 65535) cexRec7 = .ok 0
      ((writeU16 (writeU16 (((copyInto (freshPage 65535) 2 65533 cexRec7).setSlotCount
          (0 + 1)).setFreeStart (0 + 4)) (8 + 4 * 0) 2) (8 + 4 * 0 + 2)
        (cexRec7.length % 65536)).setFreeEnd 2) := by
    refine Insert_ok_script (freshPage 65535) cexRec7 2 65533 0 0 ?_ ?_ ?_ ?_ ?_ h6 ?_ ?_
    · simp only [cexRec7_length]
      decide
    · simp only [cexRec7_length]
      decide
    · simp only [cexRec7_length]
      decide
    · simp only [cexRec7_length]
      decide
    · decide
    · decide
    · decide
  refine ⟨by decide, ?_, ?_⟩
  · rw [hIns]
    rfl
  · rw [hIns]
    simp only [InsOut.pageD]
    simp only [freeStart_setFreeEnd, freeStart_writeU16_dir2, freeStart_writeU16_dir,
      freeStart_setFreeStart]
    decide

/-- Symbolic execution of `Update` through a successful `Delete` and a
successful re-`Insert`. -/
theorem Update_ok_script (p : HeapPage) (i : Int) (rec : List Nat) (T : HeapPage)
    (sid : Nat) (r : HeapPage)
    (hD : Delete p i = .ok T) (hI : Insert T rec = .ok sid r) :
    Update p i rec = .ok r := by
  unfold HeapPage.Update
  rw [hD]
  simp only []
  rw [hI]

/-- The 65532-byte record of the C6 counterexample: byte 0 is `63`,
byte 9 is `1`, every other byte `0`. -/
def cexRec6 : List Nat :=
  63 :: (List.replicate 8 0 ++ 1 :: List.replicate 65522 0)

theorem cexRec6_length : cexRec6.length = 65532 := by
  show (63 :: (List.replicate 8 0 ++ 1 :: List.replicate 65522 0) : List Nat).length = 65532
  rw [List.length_cons, List.length_append, List.length_replicate, List.length_cons,
    List.length_replicate]

/-- The page holding the single record `[7]` in a 65534-byte buffer: slot 0
live at offset 65533 with length 1, `freeStart = 12`, `freeEnd = 65533`. -/
def cexPage6 : HeapPage := (Insert (freshPage 65534) [7]).pageD (freshPage 65534)

/-- Counterexample to C6 as stated: on the 65534-byte page holding one
1-byte record in slot 0 (`freeEnd = 65533`), `Update(0, R2)` with the
65532-byte record `R2 = 3F 00 ×8 01 00 …` *succeeds* — the wrapped `need`
passes the full-page check, `newEnd` wraps to `1`, and the record `copy`
overwrites the header and slot directory — yet `R2` is assigned slot
`16129`, not `slotCount_before = 1`: slot `1` is empty afterwards and
`Get(0)` returns `[2]`, not `NotFound`. -/
theorem C6_counterexample :
    slotCount cexPage6 = 1 ∧
    readU16 cexPage6 (8 + 4 * 0 + 2) ≠ 0 ∧
    (Update cexPage6 (0 : Int) cexRec6).isErr = false ∧
    Get ((Update cexPage6 (0 : Int) cexRec6).pageD cexPage6) (0 : Int) = .ok [2] ∧
    Get ((Update cexPage6 (0 : Int) cexRec6).pageD cexPage6) ((1 : Nat) : Int) = .notFound := by
  have hDel : Delete cexPage6 (0 : Int) = .ok (tombstonePage cexPage6 0) :=
    Delete_success cexPage6 0 (by decide) (by decide) (by decide)
  have hIns : Insert (tombstonePage cexPage6 0) cexRec6 = .ok 16129
      ((writeU16 (writeU16 (((copyInto (tombstonePage cexPage6 0) 1 65532 cexRec6).setSlotCount
          (16129 + 1)).setFreeStart (0 + 4)) (8 + 4 * 16129) 1) (8 + 4 * 16129 + 2)
        (cexRec6.length % 65536)).setFreeEnd 1) := by
    refine Insert_ok_script (tombstonePage cexPage6 0) cexRec6 1 65532 16129 0
      ?_ ?_ ?_ ?_ ?_ ?_ ?_ ?_
    · simp only [cexRec6_length]
      decide
    · simp only [cexRec6_length]
      decide
    · simp only [cexRec6_length]
      decide
    · simp only [cexRec6_length]
      decide
    · decide
    · decide
    · decide
    · decide
  have hUpd := Update_ok_script cexPage6 (0 : Int) cexRec6 _ _ _ hDel hIns
  refine ⟨by decide, by decide, ?_, ?_, ?_⟩
  · rw [hUpd]
    rfl
  · rw [hUpd]
    decide
  · rw [hUpd]
    decide

/-! ## Pager (part_001)

The pager wraps an OS file.  We model the file as a size plus a total byte
function (reads past `size` never happen: every access is guarded, exactly
as the Go code guards them through `Stat`/`ensureSize`).  I/O errors from
the OS (open, stat, read, write, sync failures) are outside the model: we
verify the logic layered on top of a functioning file, which is what the
spec's round-trip law is about.  `mu` is a mutex; with single-threaded
sequential calls it has no observable effect. -/

structure PFile where
  size : Nat
  data : Nat → Nat

/-- `ensureSize`: if the file is at least `n` bytes long do nothing,
otherwise `Truncate` extends it with zero bytes. -/
def PFile.ensureSize (f : PFile) (n : Nat) : PFile :=
  if n ≤ f.size then f
  else { size := n, data := fun i => if i < f.size then f.data i else 0 }

/-- `WriteAt`: overwrite `buf.length` bytes starting at `off`, extending
the file if needed. -/
def PFile.writeAt (f : PFile) (off : Nat) (buf : List Nat) : PFile :=
  { size := max f.size (off + buf.length)
    data := fun i =>
      if off ≤ i ∧ i < off + buf.length then buf.getD (i - off) 0 else f.data i }

structure Pager where
  file : PFile
  pageSize : Nat

/-- `Open`: rejects `pageSize <= 0 || pageSize%512 != 0`; otherwise wraps
the file at `path` (here passed directly as a `PFile`). -/
def Pager.Open (f : PFile) (pageSize : Int) : Option Pager :=
  if pageSize ≤ 0 ∨ pageSize % 512 ≠ 0 then none
  else some { file := f, pageSize := pageSize.toNat }

/-- `Close` releases the handle; the file contents persist on disk. -/
def Pager.Close (p : Pager) : PFile := p.file

/-- `ReadPage`: negative IDs are rejected; an offset at or past the file
end grows the file and returns a zero page; otherwise `ReadAt` fills the
zero-initialized buffer, tolerating `io.EOF` (bytes past the file end stay
zero). -/
def Pager.ReadPage (p : Pager) (pageID : Int) : Option (Pager × List Nat) :=
  if pageID < 0 then none
  else
    let off := pageID.toNat * p.pageSize
    if p.file.size ≤ off then
      some ({ p with file := p.file.ensureSize (off + p.pageSize) },
        List.replicate p.pageSize 0)
    else
      some (p, (List.range p.pageSize).map fun k =>
        if off + k < p.file.size then p.file.data (off + k) else 0)

/-- `WritePage`: rejects a buffer whose length differs from `pageSize`;
a negative `pageID` makes `WriteAt`'s offset negative, which errors (the
Go code has no explicit `pageID < 0` check, but `os.File.WriteAt` rejects
negative offsets); otherwise grows the file to cover the page and writes
the buffer at `pageID * pageSize`. -/
def Pager.WritePage (p : Pager) (pageID : Int) (buf : List Nat) : Option Pager :=
  if buf.length ≠ p.pageSize then none
  else if pageID < 0 then none
  else
    let off := pageID.toNat * p.pageSize
    some { p with file := (p.file.ensureSize (off + p.pageSize)).writeAt off buf }

/-- `Flush` is `File.Sync`: durability only, no visible state change. -/
def Pager.Flush (p : Pager) : Option Pager := some p

theorem size_ensureSize (f : PFile) (n : Nat) : n ≤ (f.ensureSize n).size := by
  unfold PFile.ensureSize
  split
  · omega
  · exact Nat.le_refl n

theorem size_writeAt (f : PFile) (off : Nat) (buf : List Nat) :
    (f.writeAt off buf).size = max f.size (off + buf.length) := rfl

theorem data_writeAt_in (f : PFile) (off : Nat) (buf : List Nat) (k : Nat)
    (hk : k < buf.length) :
    (f.writeAt off buf).data (off + k) = buf.getD k 0 := by
  show (if off ≤ off + k ∧ off + k < off + buf.length
      then buf.getD (off + k - off) 0 else f.data (off + k)) = buf.getD k 0
  rw [if_pos ⟨Nat.le_add_right off k, by omega⟩, Nat.add_sub_cancel_left]

theorem ReadPage_hit (fl : PFile) (psn : Nat) (pid : Int) (B : List Nat)
    (hpid : 0 ≤ pid)
    (hlen : B.length = psn)
    (hsz : pid.toNat * psn + psn ≤ fl.size)
    (hpsn : 0 < psn)
    (hdata : ∀ k, k < psn → fl.data (pid.toNat * psn + k) = B.getD k 0) :
    Pager.ReadPage ⟨fl, psn⟩ pid = some (⟨fl, psn⟩, B) := by
  unfold Pager.ReadPage
  rw [if_neg (by omega)]
  simp only []
  rw [if_neg (by omega)]
  refine congrArg some (Prod.ext rfl ?_)
  show (List.range psn).map (fun k =>
    if pid.toNat * psn + k < fl.size then fl.data (pid.toNat * psn + k) else 0) = B
  rw [range_map_congr psn _ (fun k => B.getD k 0)
    (fun k hk => by rw [if_pos (by omega), hdata k hk]), ← hlen, range_map_getD]

/-- **C4**: for every handle produced by `Open` (so `pageSize > 0` and
`512 ∣ pageSize`), every `pageID ≥ 0` and every buffer `B` of length
`pageSize`, the sequence `WritePage(pageID, B); Flush(); ReadPage(pageID)`
returns exactly `B`; and after `Close` and re-`Open` of the same path with
the same page size, `ReadPage(pageID)` still returns `B`. -/
theorem C4_roundtrip (f : PFile) (psz : Int) (pg : Pager) (pid : Int) (B : List Nat)
    (hopen : Pager.Open f psz = some pg)
    (hpid : 0 ≤ pid)
    (hlen : B.length = pg.pageSize) :
    ∃ pg1, pg.WritePage pid B = some pg1 ∧
      pg1.Flush = some pg1 ∧
      pg1.ReadPage pid = some (pg1, B) ∧
      ∃ pg2, Pager.Open pg1.Close psz = some pg2 ∧
        pg2.ReadPage pid = some (pg2, B) := by
  unfold Pager.Open at hopen
  split at hopen
  · exact Option.noConfusion hopen
  · rename_i hc
    injection hopen with hpg
    have hc2 := hc
    push_neg at hc2
    obtain ⟨hpos, h512⟩ := hc2
    subst hpg
    have hlen2 : B.length = psz.toNat := hlen
    have hpsn : 0 < psz.toNat := by omega
    have hsz : pid.toNat * psz.toNat + psz.toNat ≤
        ((f.ensureSize (pid.toNat * psz.toNat + psz.toNat)).writeAt
          (pid.toNat * psz.toNat) B).size := by
      rw [size_writeAt]
      have h1 := size_ensureSize f (pid.toNat * psz.toNat + psz.toNat)
      omega
    have hdata : ∀ k, k < psz.toNat →
        ((f.ensureSize (pid.toNat * psz.toNat + psz.toNat)).writeAt
          (pid.toNat * psz.toNat) B).data (pid.toNat * psz.toNat + k) = B.getD k 0 :=
      fun k hk => data_writeAt_in _ _ _ k (by omega)
    have hread := ReadPage_hit
      ((f.ensureSize (pid.toNat * psz.toNat + psz.toNat)).writeAt
        (pid.toNat * psz.toNat) B) psz.toNat pid B hpid hlen2 hsz hpsn hdata
    refine ⟨⟨(f.ensureSize (pid.toNat * psz.toNat + psz.toNat)).writeAt
        (pid.toNat * psz.toNat) B, psz.toNat⟩, ?_, rfl, hread,
      ⟨(f.ensureSize (pid.toNat * psz.toNat + psz.toNat)).writeAt
        (pid.toNat * psz.toNat) B, psz.toNat⟩, ?_, hread⟩
    · unfold Pager.WritePage
      rw [if_neg (by omega), if_neg (by omega)]
    · unfold Pager.Open Pager.Close
      rw [if_neg hc]

theorem C4_roundtrip_witness :
    ∃ pg1, Pager.WritePage ⟨⟨0, fun _ => 0⟩, 512⟩ 5 (List.replicate 512 3) = some pg1 ∧
      pg1.Flush = some pg1 ∧
      pg1.ReadPage 5 = some (pg1, List.replicate 512 3) ∧
      ∃ pg2, Pager.Open pg1.Close 512 = some pg2 ∧
        pg2.ReadPage 5 = some (pg2, List.replicate 512 3) :=
  C4_roundtrip ⟨0, fun _ => 0⟩ 512 ⟨⟨0, fun _ => 0⟩, 512⟩ 5 (List.replicate 512 3)
    (by unfold Pager.Open; rw [if_neg (by omega)]; rfl)
    (by omega)
    (List.length_replicate 512 3)

end GoRdbms
